import Mathlib

/-!
Verification of the star-catalog storage engine (stardb.cpp).

The development shallowly embeds the C++ source: byte streams are lists of
naturals (< 256), machine integers are naturals with explicit moduli,
`float` fields that the source merely stores verbatim are kept as their
32-bit patterns, and external collaborators (stellar-class decoder,
coordinate conversion, name database service) appear as explicit function
parameters or interface models, noted at each definition.

The file has two parts: all definitions first, then all theorems.
-/

namespace Celestia

/-- A byte, represented as a natural number.  Well-formed streams only use
values below 256; none of the loaders depend on that bound. -/
abbrev Byte := Nat

/-- `celutil::readLE<uint16_t>`: read a little-endian 16-bit unsigned value
from the front of the stream, failing when fewer than two bytes remain. -/
def readLE16 : List Byte → Option (Nat × List Byte)
  | b0 :: b1 :: rest => some (b0 + b1 * 256, rest)
  | _ => none

/-- `celutil::readLE<uint32_t>`: read a little-endian 32-bit unsigned value,
failing when fewer than four bytes remain. -/
def readLE32 : List Byte → Option (Nat × List Byte)
  | b0 :: b1 :: b2 :: b3 :: rest =>
      some (b0 + b1 * 256 + b2 * 65536 + b3 * 16777216, rest)
  | _ => none

/-- `celutil::readLE<int16_t>`: little-endian signed 16-bit read
(two's complement). -/
def readLEI16 : List Byte → Option (Int × List Byte)
  | b0 :: b1 :: rest =>
      let u := b0 + b1 * 256
      some (if u < 32768 then (u : Int) else (u : Int) - 65536, rest)
  | _ => none

/-- Little-endian encoding of a 16-bit value (used to state theorems about
well-formed streams). -/
def encodeLE16 (n : Nat) : List Byte := [n % 256, n / 256 % 256]

/-- Little-endian encoding of a 32-bit value. -/
def encodeLE32 (n : Nat) : List Byte :=
  [n % 256, n / 256 % 256, n / 65536 % 256, n / 16777216 % 256]

/-- Little-endian two's-complement encoding of a signed 16-bit value. -/
def encodeLEI16 (i : Int) : List Byte := encodeLE16 (i % 65536).toNat

/-! ### Sorting by a natural-number key

`std::sort` with `PtrCatalogNumberOrderingPredicate` (resp. the cross-index
`operator<`) sorts a range by catalog number.  The embedding uses an
insertion sort; `std::sort` guarantees the same result up to the order of
equal keys, and every theorem below that inspects an order among equal keys
states its hypotheses so that equal keys cannot occur. -/

/-- Insert an element into a list assumed sorted by `key`. -/
def insertByKey (key : α → Nat) (a : α) : List α → List α
  | [] => [a]
  | b :: l => if key a ≤ key b then a :: b :: l else b :: insertByKey key a l

/-- Sort a list by the natural-number key `key` (model of `std::sort` with a
key-comparing predicate). -/
def sortByKey (key : α → Nat) : List α → List α
  | [] => []
  | a :: l => insertByKey key a (sortByKey key l)

/-- Sortedness by key: every element is ≤ all later elements. -/
def SortedByKey (key : α → Nat) (l : List α) : Prop :=
  l.Pairwise (fun a b => key a ≤ key b)

/-! ### `std::lower_bound` on a sorted range

On a range sorted by key, `std::lower_bound` returns the first position
whose element is not less than the target key; the embedding takes the
head of `dropWhile (key · < k)`. -/

/-- The element `std::lower_bound` points at (if any) for target key `k`. -/
def lowerBoundByKey (key : α → Nat) (k : Nat) (l : List α) : Option α :=
  (l.dropWhile (fun a => key a < k)).head?

/-- Lookup following `StarDatabase::find` / `searchCrossIndexForCatalogNumber`:
`lower_bound` then an equality check on the key. -/
def lookupByKey (key : α → Nat) (k : Nat) (l : List α) : Option α :=
  match lowerBoundByKey key k l with
  | some a => if key a = k then some a else none
  | none => none

/-! ### Data model (stardb.h interface as used by stardb.cpp)

`AstroCatalog::IndexNumber` is `uint32_t`; the not-found sentinel is
`AstroCatalog::InvalidIndex = 0xffffffff`. -/

/-- `AstroCatalog::InvalidIndex`. -/
def InvalidIndex : Nat := 4294967295

/-- The star-details customization attributes set by `createStar`
(texture, mesh, semi-axes, radius, temperature, bolometric correction,
info URL, orbit, rotation model).  Payload values are carried verbatim;
the resource handles they produce live in external managers. -/
structure CustomAttrs where
  texture : Option (List Byte) := none
  mesh : Option (List Byte) := none
  semiAxes : Option (ℚ × ℚ × ℚ) := none
  radius : Option ℚ := none
  temperature : Option ℚ := none
  boloCorrection : Option ℚ := none
  infoURL : Option (List Byte) := none
  orbit : Bool := false
  rotationModel : Bool := false
  deriving Repr, DecidableEq

/-- A `StarDetails*` value.  `StarDetails` itself is an external class; the
term records how the record was obtained, which determines its contents and
its `shared()` status: records handed out by `StarDetails::GetStarDetails`
or `GetBarycenterDetails` are shared, a record built by the copy
constructor (`new StarDetails(*d)`) is not. -/
inductive DetTerm where
  /-- `nullptr`. -/
  | null : DetTerm
  /-- `StarDetails::GetStarDetails(sc)`: the shared per-class record,
  identified by the details id the external table returns. -/
  | sharedOf (spec : Nat) : DetTerm
  /-- `StarDetails::GetBarycenterDetails()`: the shared barycenter marker. -/
  | barycenter : DetTerm
  /-- `new StarDetails(*base)`: a private clone. -/
  | clone (base : DetTerm) : DetTerm
  /-- The Modify-disposition merge of a freshly obtained record's spectral
  data into an existing customized record (`createStar` lines setting
  spectral type, temperature, bolometric correction, texture/rotation when
  the knowledge bits are unset, and visibility). -/
  | merged (base fresh : DetTerm) : DetTerm
  /-- The extended-attribute setters of `createStar` applied to `base`. -/
  | custom (base : DetTerm) (attrs : CustomAttrs) : DetTerm
  deriving Repr, DecidableEq

/-- `StarDetails::shared()` of the record a `DetTerm` denotes. -/
def DetTerm.sharedFlag : DetTerm → Bool
  | .null => true
  | .sharedOf _ => true
  | .barycenter => true
  | .clone _ => false
  | .merged base _ => base.sharedFlag
  | .custom base _ => base.sharedFlag

/-- A star position.  `loadBinary` stores the three `float32` words of the
record verbatim; `createStar` stores the output of the external
double-precision conversion `astro::equatorialToCelestialCart` applied to
the (float-truncated) right ascension, declination and distance, which the
embedding records by those arguments; a barycenter-relative star copies its
barycenter's position value. -/
inductive StarPos where
  /-- Verbatim float32 bit patterns from the binary catalog; `words 0 0 0`
  is the exact origin (0.0, 0.0, 0.0). -/
  | words (x y z : Nat) : StarPos
  /-- `astro::equatorialToCelestialCart(ra, dec, distance)` for the recorded
  (already float-truncated) arguments. -/
  | computed (ra dec dist : ℚ) : StarPos
  deriving Repr, DecidableEq

/-- A `Star` record.  The `Star` class itself is external; these are the
fields stardb.cpp reads and writes through its accessors.  The absolute
magnitude of a binary-loaded star is the packed int16 divided by 256, which
is exactly representable in float32, so it is carried as a rational.
`extinction` records the pair (extinction, distance) whose float quotient
the source stores.  `orbitBary` / `orbiting` are the bidirectional
barycenter links established by `finish` (stars are referred to by catalog
number, the identity `find` resolves pointers by). -/
structure Star where
  index : Nat := InvalidIndex
  pos : StarPos := .words 0 0 0
  absMag : ℚ := 0
  extinction : Option (ℚ × ℚ) := none
  details : DetTerm := .null
  orbitBary : Option Nat := none
  orbiting : List Nat := []
  deriving Repr, DecidableEq

instance : Inhabited Star := ⟨{}⟩

/-- A cross-index entry: (external catalog number, internal catalog
number); `operator<` compares the external number only. -/
structure CrossIndexEntry where
  catalogNumber : Nat
  celCatalogNumber : Nat
  deriving Repr, DecidableEq

/-- The catalog kinds of `StarDatabase::Catalog`
(`HenryDraper = 0`, `Gliese = 1`, `SAO = 2`, `MaxCatalog = 3`; the enum
lives in stardb.h, reproduced here from the uses in stardb.cpp and the
spec's catalog list). -/
def HenryDraper : Nat := 0

/-- `StarDatabase::Gliese`. -/
def Gliese : Nat := 1

/-- `StarDatabase::SAO`. -/
def SAO : Nat := 2

/-- `StarDatabase::MaxCatalog`. -/
def MaxCatalog : Nat := 3

/-- The `StarDatabase` load-time state.  `unsortedStars` is the growable
`BlockArray<Star>` (stable element addresses; the embedding therefore uses
list positions as pointers).  `binFileCatalogNumberIndex` holds positions
sorted by catalog number ([] models the null pointer);
`stcFileCatalogNumberIndex` is the `std::map` from catalog number to
position.  `names` models the external `StarNameDatabase` service as a
multimap of (catalog number, name) pairs, `none` being a null pointer.
`nextAutoCatalogNumber` starts just below `InvalidIndex` and decreases
(stardb.h initializer, per the spec's auto-numbering note). -/
structure DB where
  unsortedStars : List Star := []
  nStars : Nat := 0
  binFileCatalogNumberIndex : List Nat := []
  stcFileCatalogNumberIndex : List (Nat × Nat) := []
  names : Option (List (Nat × List Byte)) := none
  crossIndexes : List (Option (List CrossIndexEntry)) := [none, none, none]
  barycenters : List (Nat × Nat) := []
  nextAutoCatalogNumber : Nat := 4294967294
  deriving Repr, DecidableEq

/-- A fresh, empty database (`StarDatabase::StarDatabase`). -/
def DB.empty : DB := {}

/-- Dereference a star pointer (position into `unsortedStars`). -/
def starAt (l : List Star) (p : Nat) : Star := l.getD p default

/-! ### Binary catalog loader (`StarDatabase::loadBinary`) -/

/-- The 8-byte magic "CELSTARS". -/
def FILE_HEADER : List Byte := [67, 69, 76, 83, 84, 65, 82, 83]

/-- The 8-byte magic "CELINDEX". -/
def CROSSINDEX_FILE_HEADER : List Byte := [67, 69, 76, 73, 78, 68, 69, 88]

/-- One record of the loop body of `loadBinary`: catalog number (uint32),
x/y/z (float32 words, stored verbatim), packed magnitude (int16, divided by
256.0f — exact, as int16/256 fits float32), packed spectral type (uint16).
`unpack` is the external composition of `StellarClass::unpackV1` and
`StarDetails::GetStarDetails`, yielding the shared details id or `none`
when the packed class does not decode. -/
def readStarRecord (unpack : Nat → Option Nat) (bytes : List Byte) :
    Option (Star × List Byte) :=
  match readLE32 bytes with
  | none => none
  | some (catNo, b1) =>
  match readLE32 b1 with
  | none => none
  | some (x, b2) =>
  match readLE32 b2 with
  | none => none
  | some (y, b3) =>
  match readLE32 b3 with
  | none => none
  | some (z, b4) =>
  match readLEI16 b4 with
  | none => none
  | some (mag, b5) =>
  match readLE16 b5 with
  | none => none
  | some (sp, b6) =>
  match unpack sp with
  | none => none
  | some d =>
      some ({ index := catNo, pos := .words x y z, absMag := (mag : ℚ) / 256,
              details := .sharedOf d }, b6)

/-- The `while (nStars < totalStars)` loop: read exactly `n` records. -/
def readStars (unpack : Nat → Option Nat) : Nat → List Byte → Option (List Star × List Byte)
  | 0, bytes => some ([], bytes)
  | n + 1, bytes =>
    match readStarRecord unpack bytes with
    | none => none
    | some (s, rest) =>
      match readStars unpack n rest with
      | none => none
      | some (l, rest2) => some (s :: l, rest2)

/-- `StarDatabase::loadBinary`: validate magic and version (0x0100), read
the declared count, read that many records, append them to the unsorted
collection, then build the temporary pointer array over the whole
collection sorted by catalog number.  `none` is a `false` return. -/
def loadBinary (unpack : Nat → Option Nat) (db : DB) (bytes : List Byte) : Option DB :=
  if bytes.take 8 = FILE_HEADER then
    match readLE16 (bytes.drop 8) with
    | none => none
    | some (version, b1) =>
      if version = 256 then
        match readLE32 b1 with
        | none => none
        | some (n, b2) =>
          match readStars unpack n b2 with
          | none => none
          | some (newStars, _) =>
            let all := db.unsortedStars ++ newStars
            some { db with
              unsortedStars := all,
              nStars := db.nStars + n,
              binFileCatalogNumberIndex :=
                if 0 < all.length then
                  sortByKey (fun p => (starAt all p).index) (List.range all.length)
                else db.binFileCatalogNumberIndex }
      else none
  else none

/-! ### Finalization (`StarDatabase::finish`) and lookup -/

/-- `StarDatabase::find`: `lower_bound` over the catalog number index, then
an equality check; `nullptr` is `none`. -/
def dbFind (catalogNumberIndex : List Star) (catNo : Nat) : Option Star :=
  lookupByKey Star.index catNo catalogNumberIndex

/-- Mutate, through the pointer `find` returns, the first star carrying the
given catalog number. -/
def updateFirstByIndex (k : Nat) (f : Star → Star) : List Star → List Star
  | [] => []
  | s :: l => if s.index = k then f s :: l else s :: updateFirstByIndex k f l

/-- One deferred barycenter pair of the `finish` loop: look up both catalog
numbers; when both resolve, link star → barycenter and barycenter ← star
(`setOrbitBarycenter` / `addOrbitingStar`; a failed assertion in debug
builds is a guarded no-op here, matching the release-build `if`). -/
def resolveBarycenter (l : List Star) (cb : Nat × Nat) : List Star :=
  match dbFind l cb.1, dbFind l cb.2 with
  | some _, some _ =>
      updateFirstByIndex cb.2 (fun b => { b with orbiting := b.orbiting ++ [cb.1] })
        (updateFirstByIndex cb.1 (fun s => { s with orbitBary := some cb.2 }) l)
  | _, _ => l

/-- `StarDatabase::finish`: build the octree and flatten it into the final
star array, build the catalog number index over it, then resolve the
deferred barycenters.  The octree (`DynamicStarOctree`, octree.h) is an
external collaborator; per the spec (§4.5) its flattening writes every star
of the unsorted collection exactly once, in an unspecified traversal order,
and `buildIndexes` then sorts pointers to all of them by catalog number —
so the catalog number index, the only structure `find` consults, is the
sorted arrangement of the loaded multiset regardless of traversal order.
The result is that index. -/
def finish (db : DB) : List Star :=
  db.barycenters.foldl resolveBarycenter (sortByKey Star.index db.unsortedStars)

/-! ### Values used to state concrete claims -/

/-- One record of a binary catalog stream, pre-encoding. -/
structure RawStarRecord where
  catNo : Nat
  x : Nat
  y : Nat
  z : Nat
  mag : Int
  spectral : Nat
  deriving Repr, DecidableEq

/-- Field bounds making a record encodable in the fixed binary format. -/
def RawStarRecord.WF (r : RawStarRecord) : Prop :=
  r.catNo < 4294967296 ∧ r.x < 4294967296 ∧ r.y < 4294967296 ∧
    r.z < 4294967296 ∧ -32768 ≤ r.mag ∧ r.mag ≤ 32767 ∧ r.spectral < 65536

instance (r : RawStarRecord) : Decidable r.WF := by
  unfold RawStarRecord.WF
  infer_instance

/-- The byte encoding of one record. -/
def encodeRecord (r : RawStarRecord) : List Byte :=
  encodeLE32 r.catNo ++ encodeLE32 r.x ++ encodeLE32 r.y ++ encodeLE32 r.z ++
    encodeLEI16 r.mag ++ encodeLE16 r.spectral

/-- A valid binary catalog stream: magic, version 0x0100, declared count,
then the records. -/
def encodeStream (rs : List RawStarRecord) : List Byte :=
  FILE_HEADER ++ encodeLE16 256 ++ encodeLE32 rs.length ++
    (rs.map encodeRecord).flatten

/-- The star `loadBinary` builds from a record. -/
def starOfRecord (unpack : Nat → Option Nat) (r : RawStarRecord) : Star :=
  { index := r.catNo, pos := .words r.x r.y r.z, absMag := (r.mag : ℚ) / 256,
    details := match unpack r.spectral with
               | some d => .sharedOf d
               | none => .null }

/-! ### Cross-index tables (`StarDatabase::loadCrossIndex` and lookups) -/

/-- The pair-reading loop of `loadCrossIndex`: (external uint32, internal
uint32) pairs until end of stream.  A failed read of the *first* number at
end of stream (fewer than 4 bytes left) sets `eof` and breaks the loop
successfully; a failed read of the *second* number is fatal. -/
def readCrossPairs : List Byte → Option (List CrossIndexEntry)
  | b0 :: b1 :: b2 :: b3 :: b4 :: b5 :: b6 :: b7 :: rest =>
      match readCrossPairs rest with
      | none => none
      | some l =>
          some ({ catalogNumber := b0 + b1 * 256 + b2 * 65536 + b3 * 16777216,
                  celCatalogNumber := b4 + b5 * 256 + b6 * 65536 + b7 * 16777216 } :: l)
  | _ :: _ :: _ :: _ :: _ => none
  | _ => some []

/-- The stream-validation stages of `loadCrossIndex` in source order:
8-byte magic "CELINDEX", little-endian uint16 version equal to 0x0100,
then the pair loop. -/
def parseCrossStream (bytes : List Byte) : Option (List CrossIndexEntry) :=
  if bytes.take 8 = CROSSINDEX_FILE_HEADER ∧ 8 ≤ bytes.length then
    match readLE16 (bytes.drop 8) with
    | none => none
    | some (version, b1) => if version = 256 then readCrossPairs b1 else none
  else none

/-- `StarDatabase::loadCrossIndex`.  After the catalog-range check, any
existing table for the catalog is `delete`d before the new stream is even
validated (the destroyed table is modelled by clearing the slot; the C++
additionally leaves the raw pointer dangling).  Failures return `false`
with the slot cleared; success stores the table sorted by external catalog
number. -/
def loadCrossIndex (db : DB) (catalog : Nat) (bytes : List Byte) : DB × Bool :=
  if db.crossIndexes.length ≤ catalog then (db, false)
  else
    match parseCrossStream bytes with
    | none => ({ db with crossIndexes := db.crossIndexes.set catalog none }, false)
    | some entries =>
        ({ db with crossIndexes := (db.crossIndexes.set catalog
             (some (sortByKey CrossIndexEntry.catalogNumber entries))) }, true)

/-- `StarDatabase::searchCrossIndexForCatalogNumber`: external → internal,
by `lower_bound` on the table sorted by external number. -/
def searchCrossIndexForCatalogNumber (db : DB) (catalog number : Nat) : Nat :=
  if db.crossIndexes.length ≤ catalog then InvalidIndex
  else
    match db.crossIndexes.getD catalog none with
    | none => InvalidIndex
    | some xindex =>
        match lookupByKey CrossIndexEntry.catalogNumber number xindex with
        | some e => e.celCatalogNumber
        | none => InvalidIndex

/-- `StarDatabase::crossIndex`: internal → external, by linear `find_if`
over the table (first entry whose internal number matches). -/
def crossIndex (db : DB) (catalog celCatalogNumber : Nat) : Nat :=
  if db.crossIndexes.length ≤ catalog then InvalidIndex
  else
    match db.crossIndexes.getD catalog none with
    | none => InvalidIndex
    | some xindex =>
        match xindex.find? (fun o => celCatalogNumber == o.celCatalogNumber) with
        | some e => e.catalogNumber
        | none => InvalidIndex

/-- A valid cross-index stream for a list of (external, internal) pairs. -/
def encodeCrossStream (pairs : List (Nat × Nat)) : List Byte :=
  CROSSINDEX_FILE_HEADER ++ encodeLE16 256 ++
    (pairs.map (fun p => encodeLE32 p.1 ++ encodeLE32 p.2)).flatten

/-- The table entry for a pair. -/
def entryOfPair (p : Nat × Nat) : CrossIndexEntry :=
  { catalogNumber := p.1, celCatalogNumber := p.2 }

/-! ### Catalog identity resolver (name parsing)

Names are byte lists (the `std::string` contents).  The `sscanf` formats
used by the source are modelled conversion by conversion: `%u` skips
whitespace, accepts an optional sign and a nonempty digit run (`strtoul`),
and stores the value as `unsigned int`; a trailing `" %c"` conversion
succeeds exactly when a character remains after skipping whitespace. -/

/-- C-locale `isspace`. -/
def isSpaceB (b : Byte) : Bool := b == 32 || (9 ≤ b && b ≤ 13)

/-- C-locale `isdigit`. -/
def isDigitB (b : Byte) : Bool := 48 ≤ b && b ≤ 57

/-- ASCII `tolower`. -/
def toLowerB (b : Byte) : Byte := if 65 ≤ b ∧ b ≤ 90 then b + 32 else b

/-- `compareIgnoringCase(name, prefixString, prefixString.length()) == 0`:
the first `length` bytes match case-insensitively (a shorter name cannot
match, its terminating NUL differing from every prefix byte). -/
def matchIgnoreCase (name pfx : List Byte) : Bool :=
  pfx.length ≤ name.length &&
    (name.take pfx.length).map toLowerB == pfx.map toLowerB

/-- The `%u` conversion: skip whitespace, optional sign, a nonempty digit
run; the value is reduced modulo 2^32 (a negated value wraps; `strtoul`
clamps on digit-run overflow instead of wrapping, a case no theorem below
exercises). Returns the value and the unconsumed suffix. -/
def scanUInt (l : List Byte) : Option (Nat × List Byte) :=
  let l1 := l.dropWhile isSpaceB
  let neg : Bool := l1.head? == some 45
  let hasSign : Bool := neg || (l1.head? == some 43)
  let l2 := if hasSign then l1.tail else l1
  let ds := l2.takeWhile isDigitB
  if ds.isEmpty then none
  else
    let v := ds.foldl (fun acc b => acc * 10 + (b - 48)) 0
    some (if neg then (4294967296 - v % 4294967296) % 4294967296
          else v % 4294967296,
          l2.dropWhile isDigitB)

/-- The trailing `" %c"` of the strict formats: after skipping whitespace,
does a character remain to be converted? -/
def scanTrailingChar (l : List Byte) : Bool := !(l.dropWhile isSpaceB).isEmpty

/-- "HIP ". -/
def HIPPARCOSCatalogPfx : List Byte := [72, 73, 80, 32]

/-- "HD ". -/
def HDCatalogPfx : List Byte := [72, 68, 32]

/-- "TYC ". -/
def TychoCatalogPfx : List Byte := [84, 89, 67, 32]

/-- "SAO ". -/
def SAOCatalogPfx : List Byte := [83, 65, 79, 32]

/-- `parseSimpleCatalogNumber`: case-insensitive prefix, then
`sscanf(rest, " %u %c") == 1` — the number parses and nothing but
whitespace follows. -/
def parseSimpleCatalogNumber (name pfx : List Byte) : Option Nat :=
  if matchIgnoreCase name pfx then
    match scanUInt (name.drop pfx.length) with
    | some (num, rest) => if scanTrailingChar rest then none else some num
    | none => none
  else none

/-- `parseHIPPARCOSCatalogNumber`. -/
def parseHIPPARCOSCatalogNumber (name : List Byte) : Option Nat :=
  parseSimpleCatalogNumber name HIPPARCOSCatalogPfx

/-- `parseHDCatalogNumber`. -/
def parseHDCatalogNumber (name : List Byte) : Option Nat :=
  parseSimpleCatalogNumber name HDCatalogPfx

/-- `parseTychoCatalogNumber`: case-insensitive "TYC " prefix, then
`sscanf(rest, " %u-%u-%u") == 3` and the packed number
`tyc3*1000000000 + tyc2*10000 + tyc1` in unsigned-int arithmetic.  Note
the format has no trailing `%c`: anything after the third number is
ignored. -/
def parseTychoCatalogNumber (name : List Byte) : Option Nat :=
  if matchIgnoreCase name TychoCatalogPfx then
    match scanUInt (name.drop TychoCatalogPfx.length) with
    | some (tyc1, r1) =>
      match r1 with
      | 45 :: r2 =>
        match scanUInt r2 with
        | some (tyc2, r3) =>
          match r3 with
          | 45 :: r4 =>
            match scanUInt r4 with
            | some (tyc3, _) =>
                some ((tyc3 * 1000000000 + tyc2 * 10000 + tyc1) % 4294967296)
            | none => none
          | _ => none
        | none => none
      | _ => none
    | none => none
  else none

/-- `parseCelestiaCatalogNumber`: leading '#', then
`sscanf(name, "#%u %c") == 1`. -/
def parseCelestiaCatalogNumber (name : List Byte) : Option Nat :=
  match name with
  | b0 :: rest =>
      if b0 = 35 then
        match scanUInt rest with
        | some (num, r1) => if scanTrailingChar r1 then none else some num
        | none => none
      else none
  | [] => none

/-- Modelled from the spec: the external `StarNameDatabase` lookup service
(`namesDB->findCatalogNumberByName`) returns the catalog number filed under
an exactly matching name, if any; the localized variant is an external
translation concern folded into the service model. -/
def nameDBFind (entries : List (Nat × List Byte)) (name : List Byte) : Option Nat :=
  match entries.find? (fun e => e.2 == name) with
  | some e => some e.1
  | none => none

/-- The prefix-parsing chain of `findCatalogNumberByName`, tried after the
name database: `#N`, `HIP`, `TYC`, then `HD` and `SAO` through the
cross-indexes. -/
def resolveByParse (db : DB) (name : List Byte) : Nat :=
  match parseCelestiaCatalogNumber name with
  | some n => n
  | none =>
  match parseHIPPARCOSCatalogNumber name with
  | some n => n
  | none =>
  match parseTychoCatalogNumber name with
  | some n => n
  | none =>
  match parseHDCatalogNumber name with
  | some n => searchCrossIndexForCatalogNumber db HenryDraper n
  | none =>
  match parseSimpleCatalogNumber name SAOCatalogPfx with
  | some n => searchCrossIndexForCatalogNumber db SAO n
  | none => InvalidIndex

/-- `StarDatabase::findCatalogNumberByName`: empty names resolve to the
sentinel; a name-database hit returns immediately; otherwise the parse
chain decides. -/
def findCatalogNumberByName (db : DB) (name : List Byte) : Nat :=
  if name.isEmpty then InvalidIndex
  else
    match db.names with
    | some entries =>
        (match nameDBFind entries name with
         | some n => n
         | none => resolveByParse db name)
    | none => resolveByParse db name

/-- The resolution order exactly as the specification describes it
(spec-side definition for the refinement statement of C5): (1) name
database, (2) `#N`, (3) `HIP`, (4) `TYC`, (5) `HD` via cross-index,
(6) `SAO` via cross-index, else not-found. -/
def specResolveName (db : DB) (name : List Byte) : Nat :=
  match db.names.bind (fun entries => nameDBFind entries name) with
  | some n => n
  | none => resolveByParse db name

/-! ### Display-name synthesis (`catalogNumberToString`, `getStarNameList`) -/

/-- `StarDatabase::MAX_HIPPARCOS_NUMBER` (declared in stardb.h, outside
the excerpt).  Modelled from the spec's "maximum plain Hipparcos number";
the value 999999 agrees with the literal 1000000 threshold
`getStarNameList` uses for the same decision. -/
def MAX_HIPPARCOS_NUMBER : Nat := 999999

/-- `Star::MaxTychoCatalogNumber` (declared in star.h, outside the
excerpt).  Modelled from the spec: the largest catalog number treated as a
real Tycho number (0xf0000000); only the bound `< 2^32` matters below. -/
def MaxTychoCatalogNumber : Nat := 4026531840

/-- The decimal digits of a number, as ASCII bytes (`fmt::sprintf("%u")`). -/
def natDecimalBytes (n : Nat) : List Byte := (Nat.toDigits 10 n).map Char.toNat

/-- `catalogNumberToString`: `HIP n` for numbers up to the maximum plain
Hipparcos number, otherwise the `TYC tyc1-tyc2-tyc3` decomposition. -/
def catalogNumberToString (catalogNumber : Nat) : List Byte :=
  if catalogNumber ≤ MAX_HIPPARCOS_NUMBER then
    HIPPARCOSCatalogPfx ++ natDecimalBytes catalogNumber
  else
    let tyc3 := catalogNumber / 1000000000
    let r1 := catalogNumber - tyc3 * 1000000000
    let tyc2 := r1 / 10000
    let tyc1 := r1 - tyc2 * 10000
    TychoCatalogPfx ++ natDecimalBytes tyc1 ++ [45] ++ natDecimalBytes tyc2 ++
      [45] ++ natDecimalBytes tyc3

/-- The HIP/TYC synthesis step of `getStarNameList`: for a catalog number
that is not the sentinel, not zero and at most the maximum Tycho number,
synthesize `TYC tyc1-tyc2-tyc3` when the number is at least 1000000, else
`HIP n`; outside those bounds nothing is synthesized. -/
def synthesizedName (hip : Nat) : Option (List Byte) :=
  if hip ≠ InvalidIndex ∧ hip ≠ 0 ∧ hip ≤ MaxTychoCatalogNumber then
    if 1000000 ≤ hip then
      let tyc3 := hip / 1000000000
      let h1 := hip - tyc3 * 1000000000
      let tyc2 := h1 / 10000
      let tyc1 := h1 - tyc2 * 10000
      some (TychoCatalogPfx ++ natDecimalBytes tyc1 ++ [45] ++ natDecimalBytes tyc2 ++
        [45] ++ natDecimalBytes tyc3)
    else some (HIPPARCOSCatalogPfx ++ natDecimalBytes hip)
  else none

/-! ### Disposition and the details-mutation audit of `createStar`

The claims about shared star-details records concern which `StarDetails`
object each setter call of `createStar` mutates.  `createStarDetailsRun`
mirrors the details-related control flow of `createStar` (stardb.cpp lines
781–1008) over the booleans that determine it, recording one event per
setter call with the provenance of its target: whether the target was
freshly cloned in this call, and its `shared()` status.  The event order
and multiplicity follow the source. -/

/-- `DataDisposition`. -/
inductive Disposition where
  | add : Disposition
  | replace : Disposition
  | modify : Disposition
  deriving Repr, DecidableEq

/-- One details-setter call: was the mutated record cloned in this call,
and was it shared at the time of the call. -/
structure MutEvent where
  targetFreshClone : Bool
  targetShared : Bool
  deriving Repr, DecidableEq

/-- The invariant a mutation event must satisfy: the target is a fresh
clone or a non-shared record. -/
def MutEvent.safe (e : MutEvent) : Bool := e.targetFreshClone || !e.targetShared

/-- The inputs deciding `createStar`'s details handling: disposition and
object kind, presence/validity of "SpectralType", the existing record's
`shared()` flag and knowledge bits (Modify only), the extended-attribute
presence flags (with `hasTemperature` already accounting for the
non-positive-temperature rejection), and the orbit-barycenter outcome. -/
structure DetInput where
  disposition : Disposition
  isBarycenter : Bool
  spectralGiven : Bool
  spectralValid : Bool
  existingShared : Bool
  existingKnowsTexture : Bool
  existingKnowsRotation : Bool
  hasTexture : Bool
  hasModel : Bool
  hasRotationModel : Bool
  hasSemiAxes : Bool
  hasRadius : Bool
  hasTemperature : Bool
  hasBolometricCorrection : Bool
  hasInfoURL : Bool
  hasOrbit : Bool
  barycenterDefined : Bool
  barycenterResolvable : Bool
  deriving Repr, DecidableEq

/-- The details-related mutation events of one `createStar` run, in order.
Stage 1 obtains a record from the barycenter marker or the spectral type
(error return — no events — when a non-barycenter, non-Modify definition
lacks one or the type is invalid); the Modify merge then mutates an
existing non-shared record in place (3 unconditional setters, texture and
rotation when the knowledge bits are unset, and visibility); the
extended-attribute block clones the record first unless it is already the
existing non-shared one, applies one event per present attribute (two for
texture and radius, which also set knowledge bits; temperature adds the
recomputed bolometric correction when none is given; setOrbit counts once)
and, when a defined orbit barycenter cannot be resolved, returns failure
*after* those mutations; setRotationModel lands last on success. -/
def createStarDetailsRun (i : DetInput) : List MutEvent :=
  let stage1 : Option (Option Bool) :=
    if i.isBarycenter then some (some true)
    else if i.spectralGiven then
      (if i.spectralValid then some (some true) else none)
    else if i.disposition = Disposition.modify then some none
    else none
  match stage1 with
  | none => []
  | some detNew =>
    let modifyExisting : Bool :=
      if i.disposition = Disposition.modify then !i.existingShared else false
    let mergeEvents : List MutEvent :=
      if modifyExisting && detNew.isSome then
        List.replicate (4 + (if i.existingKnowsTexture then 0 else 1) +
          (if i.existingKnowsRotation then 0 else 1)) ⟨false, i.existingShared⟩
      else []
    let anyExt : Bool := i.hasTexture || i.hasModel || i.hasOrbit || i.hasSemiAxes ||
      i.hasRadius || i.hasTemperature || i.hasBolometricCorrection ||
      i.hasRotationModel || i.hasInfoURL
    if anyExt then
      let e : MutEvent :=
        if modifyExisting then ⟨false, i.existingShared⟩ else ⟨true, false⟩
      let extCount : Nat :=
        (if i.hasTexture then 2 else 0) + (if i.hasModel then 1 else 0) +
        (if i.hasSemiAxes then 1 else 0) + (if i.hasRadius then 2 else 0) +
        (if i.hasTemperature then (if i.hasBolometricCorrection then 1 else 2) else 0) +
        (if i.hasBolometricCorrection then 1 else 0) +
        (if i.hasInfoURL then 1 else 0)
      if i.hasOrbit then
        if i.barycenterDefined && !i.barycenterResolvable then
          mergeEvents ++ List.replicate (extCount + 1) e
        else
          mergeEvents ++ List.replicate (extCount + 1 +
            (if i.hasRotationModel then 1 else 0)) e
      else
        mergeEvents ++ List.replicate (extCount +
          (if i.hasRotationModel then 1 else 0)) e
    else
      mergeEvents

/-! ### Text catalog merger (`StarDatabase::load` and `createStar`)

The tokenizer and property-list parser are external; a definition arrives
pre-parsed.  External math (coordinate conversion, vector norms, the
apparent→absolute magnitude formula, double→float truncation) and the
stellar-class details table appear as an explicit function bundle; every
theorem below holds for every interpretation of these functions. -/

/-- External collaborators used by `createStar`:
`StellarClass::parse`+`StarDetails::GetStarDetails` (by parsed-class id),
`Vector3f::norm` of a stored position, the fixed-obliquity decomposition
of a position back into RA/Dec/distance used by Modify, and
`astro::appToAbsMag`; `truncF` is the double→float truncation applied to
RA/Dec/distance before the rectangular conversion. -/
structure Ext where
  getStarDetails : Nat → Option Nat
  posNorm : StarPos → ℚ
  posToRa : StarPos → ℚ
  posToDec : StarPos → ℚ
  appToAbsMag : ℚ → ℚ → ℚ
  truncF : ℚ → ℚ

/-- The property hash of one star definition (external parser output).
`hasRotationModel` and `hasOrbit` stand for `CreateRotationModel` /
`CreateOrbit` returning non-null. -/
structure StarData where
  spectralType : Option Nat := none
  texture : Option (List Byte) := none
  mesh : Option (List Byte) := none
  hasRotationModel : Bool := false
  semiAxes : Option (ℚ × ℚ × ℚ) := none
  radius : Option ℚ := none
  temperature : Option ℚ := none
  boloCorrection : Option ℚ := none
  infoURL : Option (List Byte) := none
  hasOrbit : Bool := false
  orbitBarycenterName : Option (List Byte) := none
  orbitBarycenterNumber : Option Nat := none
  ra : Option ℚ := none
  dec : Option ℚ := none
  distance : Option ℚ := none
  absMag : Option ℚ := none
  appMag : Option ℚ := none
  extinction : Option ℚ := none
  deriving Repr, DecidableEq

/-- One parsed definition of an stc stream: disposition, object kind,
optional catalog number, the raw colon-delimited name string, and the
property hash. -/
structure StcDef where
  disposition : Disposition := Disposition.add
  isStar : Bool := true
  catalogNumber : Option Nat := none
  objName : List Byte := []
  data : StarData := {}
  deriving Repr, DecidableEq

/-- `StarDatabase::findWhileLoading`: the sorted binary-file position
array first, then the stc `std::map`; pointers are positions into
`unsortedStars`. -/
def findWhileLoading (db : DB) (catalogNumber : Nat) : Option Nat :=
  match lookupByKey (fun p => (starAt db.unsortedStars p).index) catalogNumber
      db.binFileCatalogNumberIndex with
  | some p => some p
  | none =>
      match db.stcFileCatalogNumberIndex.find? (fun e => e.1 == catalogNumber) with
      | some e => some e.2
      | none => none

/-- `std::map::operator[]` assignment: insert or update, keeping the
position of an existing key. -/
def mapInsert (m : List (Nat × Nat)) (k v : Nat) : List (Nat × Nat) :=
  match m with
  | [] => [(k, v)]
  | e :: rest => if e.1 = k then (k, v) :: rest else e :: mapInsert rest k v

/-- Modelled from the spec: `StarNameDatabase::add` skips empty names. -/
def nameDBAdd (entries : List (Nat × List Byte)) (catNo : Nat) (nm : List Byte) :
    List (Nat × List Byte) :=
  if nm.isEmpty then entries else entries ++ [(catNo, nm)]

/-- Modelled from the spec: `StarNameDatabase::erase` drops every name
filed under the catalog number. -/
def nameDBErase (entries : List (Nat × List Byte)) (catNo : Nat) :
    List (Nat × List Byte) :=
  entries.filter (fun e => e.1 ≠ catNo)

/-- The first colon-delimited segment of a name list
(`objName.substr(0, objName.find(':'))`). -/
def firstNameOf (objName : List Byte) : List Byte :=
  objName.takeWhile (fun b => b ≠ 58)

/-- The colon-separated segments the registration loop of `load`
produces (empty segments included; `add` skips them). -/
def splitColon : List Byte → List (List Byte)
  | [] => [[]]
  | b :: rest =>
      if b = 58 then [] :: splitColon rest
      else
        match splitColon rest with
        | s :: ss => (b :: s) :: ss
        | [] => [[b]]

/-- The barycenter position obtained through `findWhileLoading`:
`findWhileLoading(bcNo)` then `getPosition()`. -/
def baryPosLookup (db : DB) (bcNo : Nat) : Option StarPos :=
  (findWhileLoading db bcNo).map (fun p => (starAt db.unsortedStars p).pos)

/-- The magnitude / extinction tail of `createStar` (lines 1094–1148)
shared by all paths: apply the computed absolute magnitude (none = the
Modify-with-no-magnitude case that leaves it unchanged), then the
extinction block, which stores extinction/distance and, when the absolute
magnitude was not given directly, subtracts the (distance-guarded)
extinction from it. -/
def applyMagnitude (star : Star) (ext : Ext) (d : StarData)
    (magnitude : Option ℚ) (absoluteDefined : Bool) : Star :=
  let star1 : Star := match magnitude with
    | some m => { star with absMag := m }
    | none => star
  match d.extinction with
  | some e0 =>
      let dist := ext.posNorm star1.pos
      let star2 := if dist ≠ 0 then { star1 with extinction := some (e0, dist) } else star1
      let e1 : ℚ := if dist ≠ 0 then e0 else 0
      if !absoluteDefined then { star2 with absMag := star2.absMag - e1 } else star2
  | none => star1

/-- The magnitude stage of `createStar`: a barycenter placeholder gets
absolute magnitude 30; otherwise AbsMag is preferred, AppMag converts via
the star's (just computed) distance — ill-conditioned below 1e-5 ly — and
a non-Modify definition with neither fails. -/
def createStarMag (ext : Ext) (db : DB) (star : Star) (disposition : Disposition)
    (d : StarData) (isBarycenter : Bool) : Bool × Star × DB :=
  if isBarycenter then
    (true, { star with absMag := 30 }, db)
  else
    match d.absMag with
    | some m => (true, applyMagnitude star ext d (some m) true, db)
    | none =>
      match d.appMag with
      | none =>
          if disposition ≠ Disposition.modify then (false, star, db)
          else (true, applyMagnitude star ext d none false, db)
      | some am =>
          let dist := ext.posNorm star.pos
          if dist < 1 / 100000 then (false, star, db)
          else (true, applyMagnitude star ext d (some (ext.appToAbsMag am dist)) false, db)

/-- The tail of `createStar` from line 1007 on: install the details
record (for `modifyExistingDetails` the update models the in-place
mutation already performed through the existing pointer), set the catalog
number for non-Modify dispositions, compute the position (barycenter copy,
or RA/Dec/distance with the Modify decomposition of the current position
as defaults; each mandatory for non-Modify), then the magnitude stage. -/
def createStarRest (ext : Ext) (db : DB) (star0 : Star) (disposition : Disposition)
    (catalogNumber : Nat) (d : StarData) (isBarycenter : Bool)
    (details : DetTerm) (baryPos : Option StarPos) : Bool × Star × DB :=
  let star1 : Star := { star0 with details := details }
  let star2 : Star :=
    if disposition ≠ Disposition.modify then { star1 with index := catalogNumber }
    else star1
  match baryPos with
  | some bp =>
      createStarMag ext db { star2 with pos := bp } disposition d isBarycenter
  | none =>
      let dist0 : ℚ :=
        if disposition = Disposition.modify then ext.posNorm star2.pos else 0
      let ra0 : ℚ :=
        if disposition = Disposition.modify ∧ 0 < dist0 then ext.posToRa star2.pos else 0
      let dec0 : ℚ :=
        if disposition = Disposition.modify ∧ 0 < dist0 then ext.posToDec star2.pos else 0
      if d.ra.isNone ∧ disposition ≠ Disposition.modify then (false, star2, db)
      else if d.dec.isNone ∧ disposition ≠ Disposition.modify then (false, star2, db)
      else if d.distance.isNone ∧ disposition ≠ Disposition.modify then (false, star2, db)
      else
        let modifyPosition := d.ra.isSome || d.dec.isSome || d.distance.isSome
        let star3 :=
          if modifyPosition then
            { star2 with pos := (StarPos.computed (ext.truncF (d.ra.getD ra0))
                (ext.truncF (d.dec.getD dec0)) (ext.truncF (d.distance.getD dist0))) }
          else star2
        createStarMag ext db star3 disposition d isBarycenter

/-- The orbit-barycenter number a `createStar` run resolves inside the
orbit block: the name resolved through `findCatalogNumberByName`, or the
literal `OrbitBarycenter` number. -/
def resolveBcNo (db : DB) (d : StarData) : Option Nat :=
  match d.orbitBarycenterName with
  | some nm => some (findCatalogNumberByName db nm)
  | none => d.orbitBarycenterNumber

/-- `StarDatabase::createStar` (lines 774–1151).  Returns the success
flag, the (possibly partially) mutated star, and the database (changed
only by the deferred-barycenter push, which the source performs before the
provisional barycenter lookup, so a failed lookup leaves the pending pair
behind). -/
def createStar (ext : Ext) (db : DB) (star : Star) (disposition : Disposition)
    (catalogNumber : Nat) (d : StarData) (isBarycenter : Bool) : Bool × Star × DB :=
  let stage1 : Option (Option DetTerm) :=
    if isBarycenter then some (some DetTerm.barycenter)
    else
      match d.spectralType with
      | some sc =>
          (match ext.getStarDetails sc with
           | some id => some (some (DetTerm.sharedOf id))
           | none => none)
      | none =>
          if disposition = Disposition.modify then some none else none
  match stage1 with
  | none => (false, star, db)
  | some details0 =>
    let modifyExistingDetails : Bool :=
      if disposition = Disposition.modify then !star.details.sharedFlag else false
    let detailsA : DetTerm :=
      if modifyExistingDetails then
        (match details0 with
         | some dnew => DetTerm.merged star.details dnew
         | none => star.details)
      else
        (match details0 with
         | some dnew => dnew
         | none => star.details)
    let hasTemperature : Bool :=
      match d.temperature with
      | some t => decide (0 < t)
      | none => false
    let anyExt : Bool := d.texture.isSome || d.mesh.isSome || d.hasOrbit ||
      d.semiAxes.isSome || d.radius.isSome || hasTemperature ||
      d.boloCorrection.isSome || d.hasRotationModel || d.infoURL.isSome
    if anyExt then
      let base : DetTerm :=
        if modifyExistingDetails then detailsA else DetTerm.clone detailsA
      let detailsB : DetTerm := DetTerm.custom base
        { texture := d.texture, mesh := d.mesh, semiAxes := d.semiAxes,
          radius := d.radius,
          temperature := if hasTemperature then d.temperature else none,
          boloCorrection := d.boloCorrection, infoURL := d.infoURL,
          orbit := d.hasOrbit, rotationModel := d.hasRotationModel }
      if d.hasOrbit then
        match resolveBcNo db d with
        | some bcNo =>
            if bcNo = InvalidIndex then (false, star, db)
            else
              let db2 := { db with barycenters := db.barycenters ++ [(catalogNumber, bcNo)] }
              match baryPosLookup db2 bcNo with
              | some bp =>
                  createStarRest ext db2 star disposition catalogNumber d isBarycenter
                    detailsB (some bp)
              | none => (false, star, db2)
        | none =>
            createStarRest ext db star disposition catalogNumber d isBarycenter
              detailsB none
      else
        createStarRest ext db star disposition catalogNumber d isBarycenter
          detailsB none
    else
      createStarRest ext db star disposition catalogNumber d isBarycenter
        detailsA none

/-- The Modify-disposition resolution of a definition's target star:
the given number, or the first name resolved through
`findCatalogNumberByName`; the sentinel finds nothing. -/
def modifyTarget (db : DB) (df : StcDef) : Option Nat :=
  let n1 : Nat :=
    match df.catalogNumber with
    | some n => n
    | none =>
        if firstNameOf df.objName ≠ [] then
          findCatalogNumberByName db (firstNameOf df.objName)
        else InvalidIndex
  if n1 = InvalidIndex then none else findWhileLoading db n1

/-- The Replace-disposition resolution of a definition's catalog number
(before the auto-number fallback). -/
def replaceNumber (db : DB) (df : StcDef) : Nat :=
  match df.catalogNumber with
  | some n => n
  | none =>
      if firstNameOf df.objName ≠ [] then
        findCatalogNumberByName db (firstNameOf df.objName)
      else InvalidIndex

/-- One iteration of the `StarDatabase::load` loop for a parsed
definition: disposition-dependent resolution of the catalog number and
target star (auto-numbering from the decreasing counter when Add/Replace
resolve nothing), the Modify-on-nonexistent warning that skips the
definition, `createStar`, the write-back through the pointer of an
existing star (mutations persist even when `createStar` fails), the
append + stc-index registration of a new star on success, and the name
registration replacing all names for the catalog number.
(`loadCategories` touches only the external category registry.) -/
def loadStep (ext : Ext) (db : DB) (df : StcDef) : DB :=
  let resolved : Nat × Option Nat × DB :=
    match df.disposition with
    | Disposition.add =>
        let n1 := df.catalogNumber.getD InvalidIndex
        if n1 = InvalidIndex then
          (db.nextAutoCatalogNumber, none,
           { db with nextAutoCatalogNumber := db.nextAutoCatalogNumber - 1 })
        else (n1, findWhileLoading db n1, db)
    | Disposition.replace =>
        let n1 := replaceNumber db df
        if n1 = InvalidIndex then
          (db.nextAutoCatalogNumber, none,
           { db with nextAutoCatalogNumber := db.nextAutoCatalogNumber - 1 })
        else (n1, findWhileLoading db n1, db)
    | Disposition.modify =>
        let n1 : Nat :=
          match df.catalogNumber with
          | some n => n
          | none =>
              if firstNameOf df.objName ≠ [] then
                findCatalogNumberByName db (firstNameOf df.objName)
              else InvalidIndex
        (n1, modifyTarget db df, db)
  let catalogNumber := resolved.1
  let starPos := resolved.2.1
  let db1 := resolved.2.2
  if starPos = none ∧ df.disposition = Disposition.modify then db1
  else
    let star0 : Star :=
      match starPos with
      | some p => starAt db1.unsortedStars p
      | none => {}
    let res := createStar ext db1 star0 df.disposition catalogNumber df.data (!df.isStar)
    let ok := res.1
    let star1 := res.2.1
    let db2 := res.2.2
    let db3 : DB :=
      match starPos with
      | some p => { db2 with unsortedStars := db2.unsortedStars.set p star1 }
      | none => db2
    if ok then
      let db4 : DB :=
        match starPos with
        | some _ => db3
        | none =>
            { db3 with
              unsortedStars := db3.unsortedStars ++ [star1],
              nStars := db3.nStars + 1,
              stcFileCatalogNumberIndex := (mapInsert db3.stcFileCatalogNumberIndex
                catalogNumber db3.unsortedStars.length) }
      if df.objName ≠ [] then
        match db4.names with
        | some entries =>
            { db4 with names := some ((splitColon df.objName).foldl
                (fun es nm => nameDBAdd es catalogNumber nm)
                (nameDBErase entries catalogNumber)) }
        | none => db4
      else db4
    else db3

/-- `StarDatabase::load` over a pre-parsed definition stream.  The fatal
paths of `load` (tokenizer errors, a non-hash value, an unrecognized
object type) concern malformed streams that never yield an `StcDef`;
parsed definitions always leave the loop running, so the call returns
success. -/
def load (ext : Ext) (db : DB) (defs : List StcDef) : DB × Bool :=
  (defs.foldl (loadStep ext) db, true)

/-- The observable database state the idempotence claim compares: star
count, the stars, both load-time catalog-number indexes (the
number→star mapping), and the name database. -/
def observable (db : DB) :
    Nat × List Star × List Nat × List (Nat × Nat) × Option (List (Nat × List Byte)) :=
  (db.nStars, db.unsortedStars, db.binFileCatalogNumberIndex,
   db.stcFileCatalogNumberIndex, db.names)

/-- A concrete interpretation of the external functions, used to
instantiate theorems and scenarios on concrete inputs. -/
def extTriv : Ext :=
  { getStarDetails := fun sc => some sc, posNorm := fun _ => 1,
    posToRa := fun _ => 0, posToDec := fun _ => 0,
    appToAbsMag := fun _ _ => 0, truncF := fun q => q }

/-- Star A of the barycenter scenario (§8): an added star with catalog
number 10 and a plain property block. -/
def defStarA : StcDef :=
  { disposition := Disposition.add, isStar := true, catalogNumber := some 10,
    objName := [],
    data := { spectralType := some 0, ra := some 0, dec := some 0,
              distance := some 1, absMag := some 1 } }

/-- Star B of the barycenter scenario: an added star with catalog number
20 whose property block contains an orbit with `OrbitBarycenter 10`. -/
def defStarB : StcDef :=
  { disposition := Disposition.add, isStar := true, catalogNumber := some 20,
    objName := [],
    data := { spectralType := some 0, hasOrbit := true,
              orbitBarycenterNumber := some 10, absMag := some 1 } }

/-- The set of star fields a `createStar` run writes (`none` = the field
was left untouched).  `orbitBary` / `orbiting` are never written by
`createStar`; `extinction` stores into the star's `Option` field, hence
the nested option. -/
structure StarOverwrite where
  index : Option Nat := none
  pos : Option StarPos := none
  absMag : Option ℚ := none
  extinction : Option (Option (ℚ × ℚ)) := none
  details : Option DetTerm := none
  deriving Repr, DecidableEq

/-- Apply an overwrite set to a star: each recorded field replaces the
star's, the rest are retained. -/
def applyOverwrite (s : Star) (ow : StarOverwrite) : Star :=
  { index := ow.index.getD s.index, pos := ow.pos.getD s.pos,
    absMag := ow.absMag.getD s.absMag,
    extinction := ow.extinction.getD s.extinction,
    details := ow.details.getD s.details,
    orbitBary := s.orbitBary, orbiting := s.orbiting }

/-- The overwrite set produced by the magnitude/extinction tail of
`createStar` (the `applyMagnitude` stage) on a run whose position field
has already been written (`ow.pos = some _`, which holds on every
non-Modify path that reaches this stage). -/
def outcomeApplyMag (ext : Ext) (d : StarData) (ow : StarOverwrite)
    (m : ℚ) (absoluteDefined : Bool) : StarOverwrite :=
  let ow1 : StarOverwrite := { ow with absMag := some m }
  match d.extinction with
  | some e0 =>
      let dist := ext.posNorm (ow1.pos.getD (StarPos.words 0 0 0))
      let ow2 := if dist ≠ 0 then { ow1 with extinction := some (some (e0, dist)) } else ow1
      let e1 : ℚ := if dist ≠ 0 then e0 else 0
      if !absoluteDefined then { ow2 with absMag := some (m - e1) } else ow2
  | none => ow1

/-- The (success flag, overwrite set) of the magnitude stage of a
non-Modify `createStar` run. -/
def outcomeMag (ext : Ext) (d : StarData) (isBarycenter : Bool)
    (ow : StarOverwrite) : Bool × StarOverwrite :=
  if isBarycenter then (true, { ow with absMag := some 30 })
  else
    match d.absMag with
    | some m => (true, outcomeApplyMag ext d ow m true)
    | none =>
      match d.appMag with
      | none => (false, ow)
      | some am =>
          let dist := ext.posNorm (ow.pos.getD (StarPos.words 0 0 0))
          if dist < 1 / 100000 then (false, ow)
          else (true, outcomeApplyMag ext d ow (ext.appToAbsMag am dist) false)

/-- The (success flag, overwrite set) of the tail of a non-Modify
`createStar` run from the details installation on (`baryPos` is the
provisional barycenter position when the run copies one). -/
def outcomeRest (ext : Ext) (catalogNumber : Nat) (d : StarData)
    (isBarycenter : Bool) (details : DetTerm) (baryPos : Option StarPos) :
    Bool × StarOverwrite :=
  let ow2 : StarOverwrite := { details := some details, index := some catalogNumber }
  match baryPos with
  | some bp => outcomeMag ext d isBarycenter { ow2 with pos := some bp }
  | none =>
    if d.ra.isNone then (false, ow2)
    else if d.dec.isNone then (false, ow2)
    else if d.distance.isNone then (false, ow2)
    else
      let modifyPosition := d.ra.isSome || d.dec.isSome || d.distance.isSome
      let ow3 :=
        if modifyPosition then
          { ow2 with pos := some (StarPos.computed (ext.truncF (d.ra.getD 0))
              (ext.truncF (d.dec.getD 0)) (ext.truncF (d.distance.getD 0))) }
        else ow2
      outcomeMag ext d isBarycenter ow3

/-- The (success flag, overwrite set) of an entire non-Modify `createStar`
run, given the already-resolved orbit-barycenter number `bcNo` and
provisional barycenter position `bp`: beyond those two inputs and the
deferred-barycenter push, such a run reads nothing from the target star
or the database, so its effect is a pure overwrite set (the factorization
is the content of `createStar_factor`). -/
def createStarOutcome (ext : Ext) (catalogNumber : Nat) (d : StarData)
    (isBarycenter : Bool) (bcNo : Option Nat) (bp : Option StarPos) :
    Bool × StarOverwrite :=
  let stage1 : Option DetTerm :=
    if isBarycenter then some DetTerm.barycenter
    else
      match d.spectralType with
      | some sc =>
          (match ext.getStarDetails sc with
           | some id => some (DetTerm.sharedOf id)
           | none => none)
      | none => none
  match stage1 with
  | none => (false, {})
  | some detailsA =>
    let hasTemperature : Bool :=
      match d.temperature with
      | some t => decide (0 < t)
      | none => false
    let anyExt : Bool := d.texture.isSome || d.mesh.isSome || d.hasOrbit ||
      d.semiAxes.isSome || d.radius.isSome || hasTemperature ||
      d.boloCorrection.isSome || d.hasRotationModel || d.infoURL.isSome
    if anyExt then
      let detailsB : DetTerm := DetTerm.custom (DetTerm.clone detailsA)
        { texture := d.texture, mesh := d.mesh, semiAxes := d.semiAxes,
          radius := d.radius,
          temperature := if hasTemperature then d.temperature else none,
          boloCorrection := d.boloCorrection, infoURL := d.infoURL,
          orbit := d.hasOrbit, rotationModel := d.hasRotationModel }
      if d.hasOrbit then
        match bcNo with
        | some bc =>
            if bc = InvalidIndex then (false, {})
            else
              match bp with
              | some p => outcomeRest ext catalogNumber d isBarycenter detailsB (some p)
              | none => (false, {})
        | none => outcomeRest ext catalogNumber d isBarycenter detailsB none
      else outcomeRest ext catalogNumber d isBarycenter detailsB none
    else
      outcomeRest ext catalogNumber d isBarycenter detailsA none

/-- The provisional barycenter position a `createStar` run with an orbit
block looks up for a valid resolved number (the push of the pending
barycenter pair does not influence the lookup). -/
def resolveBp (db : DB) (d : StarData) : Option StarPos :=
  if d.hasOrbit then
    match resolveBcNo db d with
    | some bc => if bc = InvalidIndex then none else baryPosLookup db bc
    | none => none
  else none

/-- The name-registration tail of one `load` iteration: replace every
name filed under the catalog number by the definition's colon-separated
segments (skipped for an empty name string or an absent name database). -/
def nameRegister (df : StcDef) (catalogNumber : Nat) (x : DB) : DB :=
  if df.objName ≠ [] then
    match x.names with
    | some entries =>
        { x with names := some ((splitColon df.objName).foldl
            (fun es nm => nameDBAdd es catalogNumber nm)
            (nameDBErase entries catalogNumber)) }
    | none => x
  else x

/-- A Replace definition with an explicit catalog number (§8 layout),
used to instantiate the idempotence theorem. -/
def defStarR : StcDef :=
  { disposition := Disposition.replace, isStar := true, catalogNumber := some 10,
    objName := [],
    data := { spectralType := some 0, ra := some 0, dec := some 0,
              distance := some 1, absMag := some 1 } }

/-- A Replace definition carrying neither a catalog number nor a name:
the resolution falls through to the auto-numbering counter on every
load. -/
def defStarN : StcDef :=
  { disposition := Disposition.replace, isStar := true, catalogNumber := none,
    objName := [],
    data := { spectralType := some 0, ra := some 0, dec := some 0,
              distance := some 1, absMag := some 1 } }

-- ===========================================================================
-- THEOREMS
-- ===========================================================================

theorem readLE16_encode (n : Nat) (hn : n < 65536) (rest : List Byte) :
    readLE16 (encodeLE16 n ++ rest) = some (n, rest) := by
  simp only [encodeLE16, readLE16, List.cons_append, List.nil_append]
  congr 1
  congr 1
  omega

theorem readLE32_encode (n : Nat) (hn : n < 4294967296) (rest : List Byte) :
    readLE32 (encodeLE32 n ++ rest) = some (n, rest) := by
  simp only [encodeLE32, readLE32, List.cons_append, List.nil_append]
  congr 1
  congr 1
  omega

theorem readLEI16_encode (i : Int) (h1 : -32768 ≤ i) (h2 : i ≤ 32767)
    (rest : List Byte) : readLEI16 (encodeLEI16 i ++ rest) = some (i, rest) := by
  have hmod : i % 65536 = if 0 ≤ i then i else i + 65536 := by
    split <;> omega
  simp only [encodeLEI16, encodeLE16, readLEI16, List.cons_append, List.nil_append]
  congr 1
  congr 1
  · rcases le_or_lt 0 i with h | h
    · have : (i % 65536).toNat = i.toNat := by omega
      rw [this]
      have hlt : i.toNat < 32768 := by omega
      have : i.toNat % 256 + i.toNat / 256 % 256 * 256 = i.toNat := by omega
      rw [this]
      simp only [if_pos hlt]
      omega
    · have : (i % 65536).toNat = (i + 65536).toNat := by omega
      rw [this]
      have hge : ¬ ((i + 65536).toNat % 256 + (i + 65536).toNat / 256 % 256 * 256 < 32768) := by
        omega
      have hval : (i + 65536).toNat % 256 + (i + 65536).toNat / 256 % 256 * 256
          = (i + 65536).toNat := by omega
      rw [hval]
      simp only [if_neg (hval ▸ hge)]
      omega

theorem mem_insertByKey (key : α → Nat) (a b : α) (l : List α) :
    b ∈ insertByKey key a l ↔ b = a ∨ b ∈ l := by
  induction l with
  | nil => simp [insertByKey]
  | cons c l ih =>
      simp only [insertByKey]
      split
      · simp
      · simp only [List.mem_cons, ih]
        tauto

theorem mem_sortByKey (key : α → Nat) (a : α) (l : List α) :
    a ∈ sortByKey key l ↔ a ∈ l := by
  induction l with
  | nil => simp [sortByKey]
  | cons b l ih => simp [sortByKey, mem_insertByKey, ih]

theorem sortByKey_perm (key : α → Nat) (l : List α) :
    (sortByKey key l).Perm l := by
  induction l with
  | nil => simp [sortByKey]
  | cons a l ih =>
      have h : (insertByKey key a (sortByKey key l)).Perm (a :: sortByKey key l) := by
        clear ih
        induction sortByKey key l with
        | nil => simp [insertByKey]
        | cons b m ihm =>
            simp only [insertByKey]
            split
            · exact List.Perm.refl _
            · exact (ihm.cons b).trans (List.Perm.swap a b m)
      exact h.trans (ih.cons a)

theorem sortedByKey_insert (key : α → Nat) (a : α) (l : List α)
    (h : SortedByKey key l) : SortedByKey key (insertByKey key a l) := by
  induction l with
  | nil => simp [insertByKey, SortedByKey]
  | cons b m ih =>
      rw [SortedByKey, List.pairwise_cons] at h
      simp only [insertByKey]
      split
      · rename_i hab
        rw [SortedByKey, List.pairwise_cons]
        refine ⟨?_, List.pairwise_cons.mpr h⟩
        intro c hc
        rcases List.mem_cons.mp hc with rfl | hc
        · exact hab
        · exact le_trans hab (h.1 c hc)
      · rename_i hab
        rw [SortedByKey, List.pairwise_cons]
        refine ⟨?_, ih h.2⟩
        intro c hc
        rcases (mem_insertByKey key a c m).mp hc with rfl | hc
        · omega
        · exact h.1 c hc

theorem sortedByKey_sortByKey (key : α → Nat) (l : List α) :
    SortedByKey key (sortByKey key l) := by
  induction l with
  | nil => simp [sortByKey, SortedByKey]
  | cons a l ih => exact sortedByKey_insert key a _ ih

theorem lookupByKey_cons (key : α → Nat) (k : Nat) (b : α) (m : List α) :
    lookupByKey key k (b :: m) =
      if key b < k then lookupByKey key k m
      else if key b = k then some b else none := by
  simp only [lookupByKey, lowerBoundByKey, List.dropWhile_cons]
  by_cases hb : key b < k
  · simp [hb]
  · simp [hb, List.head?]

theorem lookupByKey_eq_none (key : α → Nat) (k : Nat) (l : List α)
    (h : ∀ a ∈ l, key a ≠ k) : lookupByKey key k l = none := by
  induction l with
  | nil => rfl
  | cons b m ih =>
      rw [lookupByKey_cons]
      by_cases hb : key b < k
      · simp only [if_pos hb]
        exact ih (fun a ha => h a (List.mem_cons_of_mem b ha))
      · have := h b (List.mem_cons_self b m)
        simp [hb, this]

theorem lookupByKey_mem (key : α → Nat) (k : Nat) (l : List α) (a : α)
    (h : lookupByKey key k l = some a) : a ∈ l ∧ key a = k := by
  induction l with
  | nil => simp [lookupByKey, lowerBoundByKey] at h
  | cons b m ih =>
      rw [lookupByKey_cons] at h
      by_cases hb : key b < k
      · rw [if_pos hb] at h
        have := ih h
        exact ⟨List.mem_cons_of_mem b this.1, this.2⟩
      · rw [if_neg hb] at h
        by_cases hk : key b = k
        · rw [if_pos hk, Option.some_inj] at h
          exact ⟨h ▸ List.mem_cons_self b m, h ▸ hk⟩
        · simp [hk] at h

theorem lookupByKey_isSome (key : α → Nat) (k : Nat) (l : List α)
    (hs : SortedByKey key l) (a : α) (ha : a ∈ l) (hk : key a = k) :
    ∃ b, lookupByKey key k l = some b ∧ key b = k := by
  induction l with
  | nil => simp at ha
  | cons b m ih =>
      rw [SortedByKey, List.pairwise_cons] at hs
      rw [lookupByKey_cons]
      by_cases hb : key b < k
      · have ham : a ∈ m := by
          rcases List.mem_cons.mp ha with rfl | h
          · omega
          · exact h
        rw [if_pos hb]
        exact ih hs.2 ham
      · have hbk : key b = k := by
          rcases List.mem_cons.mp ha with rfl | h
          · omega
          · have := hs.1 a h
            omega
        rw [if_neg hb]
        exact ⟨b, by simp [hbk], hbk⟩

theorem lookupByKey_unique (key : α → Nat) (k : Nat) (l : List α)
    (hs : SortedByKey key l) (a : α) (ha : a ∈ l) (hk : key a = k)
    (huniq : ∀ b ∈ l, key b = k → b = a) :
    lookupByKey key k l = some a := by
  obtain ⟨b, hb, hbk⟩ := lookupByKey_isSome key k l hs a ha hk
  have := lookupByKey_mem key k l b hb
  rw [hb, huniq b this.1 this.2]

theorem readStarRecord_encode (unpack : Nat → Option Nat) (r : RawStarRecord)
    (hwf : r.WF) (d : Nat) (hu : unpack r.spectral = some d) (rest : List Byte) :
    readStarRecord unpack (encodeRecord r ++ rest) =
      some (starOfRecord unpack r, rest) := by
  obtain ⟨h1, h2, h3, h4, h5, h6, h7⟩ := hwf
  rw [readStarRecord, encodeRecord]
  simp only [List.append_assoc, readLE32_encode r.catNo h1, readLE32_encode r.x h2,
    readLE32_encode r.y h3, readLE32_encode r.z h4, readLEI16_encode r.mag h5 h6,
    readLE16_encode r.spectral h7, hu]
  simp [starOfRecord, hu]

theorem readStars_encode (unpack : Nat → Option Nat) (rs : List RawStarRecord)
    (hwf : ∀ r ∈ rs, r.WF) (hu : ∀ r ∈ rs, (unpack r.spectral).isSome)
    (rest : List Byte) :
    readStars unpack rs.length ((rs.map encodeRecord).flatten ++ rest) =
      some (rs.map (starOfRecord unpack), rest) := by
  induction rs with
  | nil => simp [readStars]
  | cons r rs ih =>
      obtain ⟨d, hd⟩ := Option.isSome_iff_exists.mp (hu r (List.mem_cons_self r rs))
      simp only [List.map_cons, List.flatten_cons, List.length_cons, List.append_assoc,
        readStars, readStarRecord_encode unpack r (hwf r (List.mem_cons_self r rs)) d hd,
        ih (fun a ha => hwf a (List.mem_cons_of_mem r ha))
           (fun a ha => hu a (List.mem_cons_of_mem r ha))]

theorem loadBinary_encode (unpack : Nat → Option Nat) (rs : List RawStarRecord)
    (hwf : ∀ r ∈ rs, r.WF) (hu : ∀ r ∈ rs, (unpack r.spectral).isSome)
    (hn : rs.length < 4294967296) :
    loadBinary unpack DB.empty (encodeStream rs) =
      some { unsortedStars := rs.map (starOfRecord unpack),
             nStars := rs.length,
             binFileCatalogNumberIndex :=
               if 0 < rs.length then
                 sortByKey (fun p => (starAt (rs.map (starOfRecord unpack)) p).index)
                   (List.range rs.length)
               else [],
             stcFileCatalogNumberIndex := [],
             names := none,
             crossIndexes := [none, none, none],
             barycenters := [],
             nextAutoCatalogNumber := 4294967294 } := by
  have htake : (FILE_HEADER ++ (encodeLE16 256 ++ (encodeLE32 rs.length ++
      (rs.map encodeRecord).flatten))).take 8 = FILE_HEADER := by
    rfl
  have hdrop : (FILE_HEADER ++ (encodeLE16 256 ++ (encodeLE32 rs.length ++
      (rs.map encodeRecord).flatten))).drop 8 = encodeLE16 256 ++
      (encodeLE32 rs.length ++ (rs.map encodeRecord).flatten) := by
    rfl
  have hrd := readStars_encode unpack rs hwf hu []
  rw [List.append_nil] at hrd
  rw [loadBinary, encodeStream]
  simp only [List.append_assoc] at htake hdrop ⊢
  rw [htake, if_pos rfl, hdrop]
  simp only [readLE16_encode 256 (by norm_num), readLE32_encode rs.length hn, hrd,
    if_pos rfl]
  simp [DB.empty, List.length_map]

/-- C1: for every valid binary catalog stream (magic CELSTARS, version
0x0100, declared count followed by that many well-formed records whose
packed spectral types decode), `loadBinary` on an empty database succeeds,
the star count equals the declared count, and after `finish()` every
record's catalog number is reachable via `find`; a record whose catalog
number is unique in the stream is found with exactly its fields —
in particular absolute magnitude packedMag/256 and the verbatim position
words. -/
theorem binary_load_finish_reaches_all
    (unpack : Nat → Option Nat) (rs : List RawStarRecord)
    (hwf : ∀ r ∈ rs, r.WF) (hu : ∀ r ∈ rs, (unpack r.spectral).isSome)
    (hn : rs.length < 4294967296) :
    ∃ db, loadBinary unpack DB.empty (encodeStream rs) = some db ∧
      db.nStars = rs.length ∧
      (finish db).length = rs.length ∧
      (∀ r ∈ rs, ∃ s, dbFind (finish db) r.catNo = some s ∧ s.index = r.catNo) ∧
      (∀ r ∈ rs, (∀ r2 ∈ rs, r2.catNo = r.catNo → r2 = r) →
        dbFind (finish db) r.catNo = some (starOfRecord unpack r)) := by
  refine ⟨_, loadBinary_encode unpack rs hwf hu hn, rfl, ?_, ?_, ?_⟩
  · show (finish _).length = _
    rw [finish]
    simp only [List.foldl_nil]
    rw [(sortByKey_perm Star.index _).length_eq, List.length_map]
  · intro r hr
    show ∃ s, dbFind (finish _) r.catNo = some s ∧ s.index = r.catNo
    rw [finish]
    simp only [List.foldl_nil]
    have hmem : starOfRecord unpack r ∈
        sortByKey Star.index (rs.map (starOfRecord unpack)) := by
      rw [mem_sortByKey]
      exact List.mem_map_of_mem _ hr
    obtain ⟨s, hs, hsk⟩ := lookupByKey_isSome Star.index r.catNo _
      (sortedByKey_sortByKey _ _) _ hmem rfl
    exact ⟨s, hs, hsk⟩
  · intro r hr huniq
    show dbFind (finish _) r.catNo = some (starOfRecord unpack r)
    rw [finish]
    simp only [List.foldl_nil]
    have hmem : starOfRecord unpack r ∈
        sortByKey Star.index (rs.map (starOfRecord unpack)) := by
      rw [mem_sortByKey]
      exact List.mem_map_of_mem _ hr
    refine lookupByKey_unique Star.index r.catNo _
      (sortedByKey_sortByKey _ _) _ hmem rfl ?_
    intro b hb hbk
    rw [mem_sortByKey] at hb
    obtain ⟨r2, hr2, rfl⟩ := List.mem_map.mp hb
    have : r2.catNo = r.catNo := hbk
    rw [huniq r2 hr2 this]

/-- Witness for C1 at the stream with the single record
(catalogNumber 1, position words (0,0,0), packed magnitude 0): `find 1`
returns a star whose absolute magnitude is 0 and whose position is the
exact origin. -/
theorem binary_load_finish_reaches_all_witness :
    (∃ db, loadBinary (fun _ => some 0) DB.empty
        (encodeStream [{ catNo := 1, x := 0, y := 0, z := 0, mag := 0, spectral := 0 }]) =
          some db ∧
      db.nStars = 1 ∧
      (finish db).length = 1 ∧
      (∀ r ∈ [({ catNo := 1, x := 0, y := 0, z := 0, mag := 0, spectral := 0 } : RawStarRecord)],
        ∃ s, dbFind (finish db) r.catNo = some s ∧ s.index = r.catNo) ∧
      (∀ r ∈ [({ catNo := 1, x := 0, y := 0, z := 0, mag := 0, spectral := 0 } : RawStarRecord)],
        (∀ r2 ∈ [({ catNo := 1, x := 0, y := 0, z := 0, mag := 0, spectral := 0 } : RawStarRecord)],
          r2.catNo = r.catNo → r2 = r) →
        dbFind (finish db) r.catNo =
          some (starOfRecord (fun _ => some 0) r))) ∧
    (starOfRecord (fun _ => some 0)
        { catNo := 1, x := 0, y := 0, z := 0, mag := 0, spectral := 0 }).absMag = 0 ∧
    (starOfRecord (fun _ => some 0)
        { catNo := 1, x := 0, y := 0, z := 0, mag := 0, spectral := 0 }).pos =
      StarPos.words 0 0 0 := by
  refine ⟨?_, by norm_num [starOfRecord], rfl⟩
  exact binary_load_finish_reaches_all (fun _ => some 0) _
    (by decide) (by decide) (by decide)

theorem getD_set_self (l : List α) (n : Nat) (a d : α) (h : n < l.length) :
    (l.set n a).getD n d = a := by
  rw [List.getD_eq_getElem]
  exact List.getElem_set_self (by simpa using h)

theorem pairwise_ne_forall (f : α → β) (l : List α)
    (h : l.Pairwise (fun p q => f p ≠ f q)) :
    ∀ a ∈ l, ∀ b ∈ l, a ≠ b → f a ≠ f b := by
  intro a ha b hb hab
  exact List.Pairwise.forall (fun x y hxy => Ne.symm hxy) h ha hb hab

theorem find?_unique (p : α → Bool) (l : List α) (a : α) (ha : a ∈ l)
    (hpa : p a = true) (huniq : ∀ b ∈ l, p b = true → b = a) :
    l.find? p = some a := by
  induction l with
  | nil => simp at ha
  | cons b m ih =>
      rw [List.find?]
      by_cases hpb : p b = true
      · have hba : b = a := huniq b (List.mem_cons_self b m) hpb
        subst hba
        simp [hpb]
      · simp only [Bool.not_eq_true] at hpb
        rw [hpb]
        rcases List.mem_cons.mp ha with rfl | ham
        · rw [hpa] at hpb
          cases hpb
        · exact ih ham (fun c hc => huniq c (List.mem_cons_of_mem b hc))

theorem readCrossPairs_encode (pairs : List (Nat × Nat))
    (hwf : ∀ p ∈ pairs, p.1 < 4294967296 ∧ p.2 < 4294967296) :
    readCrossPairs (pairs.map (fun p => encodeLE32 p.1 ++ encodeLE32 p.2)).flatten =
      some (pairs.map entryOfPair) := by
  induction pairs with
  | nil => rfl
  | cons p ps ih =>
      obtain ⟨h1, h2⟩ := hwf p (List.mem_cons_self p ps)
      have hcons : (List.map (fun q : Nat × Nat => encodeLE32 q.1 ++ encodeLE32 q.2)
            (p :: ps)).flatten =
          p.1 % 256 :: p.1 / 256 % 256 :: p.1 / 65536 % 256 :: p.1 / 16777216 % 256 ::
          p.2 % 256 :: p.2 / 256 % 256 :: p.2 / 65536 % 256 :: p.2 / 16777216 % 256 ::
          (List.map (fun q : Nat × Nat => encodeLE32 q.1 ++ encodeLE32 q.2) ps).flatten := by
        simp [encodeLE32]
      rw [hcons, readCrossPairs, ih (fun q hq => hwf q (List.mem_cons_of_mem p hq))]
      have e1 : p.1 % 256 + p.1 / 256 % 256 * 256 + p.1 / 65536 % 256 * 65536 +
          p.1 / 16777216 % 256 * 16777216 = p.1 := by omega
      have e2 : p.2 % 256 + p.2 / 256 % 256 * 256 + p.2 / 65536 % 256 * 65536 +
          p.2 / 16777216 % 256 * 16777216 = p.2 := by omega
      rw [e1, e2]
      rfl

theorem loadCrossIndex_encode (db : DB) (catalog : Nat)
    (hc : catalog < db.crossIndexes.length) (pairs : List (Nat × Nat))
    (hwf : ∀ p ∈ pairs, p.1 < 4294967296 ∧ p.2 < 4294967296) :
    loadCrossIndex db catalog (encodeCrossStream pairs) =
      ({ db with crossIndexes := (db.crossIndexes.set catalog
           (some (sortByKey CrossIndexEntry.catalogNumber (pairs.map entryOfPair)))) },
       true) := by
  have hparse : parseCrossStream (encodeCrossStream pairs) =
      some (pairs.map entryOfPair) := by
    rw [parseCrossStream, encodeCrossStream]
    have htake : (CROSSINDEX_FILE_HEADER ++ encodeLE16 256 ++
        (pairs.map (fun p => encodeLE32 p.1 ++ encodeLE32 p.2)).flatten).take 8 =
        CROSSINDEX_FILE_HEADER := rfl
    have hlen : 8 ≤ (CROSSINDEX_FILE_HEADER ++ encodeLE16 256 ++
        (pairs.map (fun p => encodeLE32 p.1 ++ encodeLE32 p.2)).flatten).length := by
      simp [CROSSINDEX_FILE_HEADER]
    rw [if_pos ⟨htake, hlen⟩]
    have hdrop : (CROSSINDEX_FILE_HEADER ++ encodeLE16 256 ++
        (pairs.map (fun p => encodeLE32 p.1 ++ encodeLE32 p.2)).flatten).drop 8 =
        encodeLE16 256 ++ (pairs.map (fun p => encodeLE32 p.1 ++ encodeLE32 p.2)).flatten := rfl
    rw [hdrop]
    simp only [readLE16_encode 256 (by norm_num), if_pos rfl,
      readCrossPairs_encode pairs hwf]
    rw [if_pos trivial]
  rw [loadCrossIndex, if_neg (Nat.not_le.mpr hc), hparse]

/-- C6 (amended): after a successful `loadCrossIndex` of a stream whose
external numbers are pairwise distinct and whose internal numbers are
pairwise distinct, every loaded (external, internal) pair round-trips:
`searchCrossIndexForCatalogNumber` on the external number returns the
internal one, and `crossIndex` on the internal number returns the external
one. -/
theorem crossIndex_round_trip (db : DB) (catalog : Nat)
    (hc : catalog < db.crossIndexes.length) (pairs : List (Nat × Nat))
    (hwf : ∀ p ∈ pairs, p.1 < 4294967296 ∧ p.2 < 4294967296)
    (hext : pairs.Pairwise (fun p q => p.1 ≠ q.1))
    (hint : pairs.Pairwise (fun p q => p.2 ≠ q.2)) :
    (loadCrossIndex db catalog (encodeCrossStream pairs)).2 = true ∧
    ∀ p ∈ pairs,
      searchCrossIndexForCatalogNumber
        (loadCrossIndex db catalog (encodeCrossStream pairs)).1 catalog p.1 = p.2 ∧
      crossIndex
        (loadCrossIndex db catalog (encodeCrossStream pairs)).1 catalog p.2 = p.1 := by
  rw [loadCrossIndex_encode db catalog hc pairs hwf]
  refine ⟨rfl, ?_⟩
  intro p hp
  have hextS : ∀ a ∈ pairs, ∀ b ∈ pairs, a ≠ b → a.1 ≠ b.1 :=
    pairwise_ne_forall Prod.fst pairs hext
  have hintS : ∀ a ∈ pairs, ∀ b ∈ pairs, a ≠ b → a.2 ≠ b.2 :=
    pairwise_ne_forall Prod.snd pairs hint
  have hslot : ({ db with crossIndexes := (db.crossIndexes.set catalog
      (some (sortByKey CrossIndexEntry.catalogNumber (pairs.map entryOfPair)))) } : DB).crossIndexes.getD
        catalog none =
      some (sortByKey CrossIndexEntry.catalogNumber (pairs.map entryOfPair)) := by
    exact getD_set_self _ _ _ _ hc
  have hlen2 : catalog < ({ db with crossIndexes := (db.crossIndexes.set catalog
      (some (sortByKey CrossIndexEntry.catalogNumber (pairs.map entryOfPair)))) } : DB).crossIndexes.length := by
    simpa using hc
  have hmem : entryOfPair p ∈ sortByKey CrossIndexEntry.catalogNumber (pairs.map entryOfPair) := by
    rw [mem_sortByKey]
    exact List.mem_map_of_mem _ hp
  constructor
  · have hlook : lookupByKey CrossIndexEntry.catalogNumber p.1
        (sortByKey CrossIndexEntry.catalogNumber (pairs.map entryOfPair)) =
        some (entryOfPair p) := by
      refine lookupByKey_unique CrossIndexEntry.catalogNumber p.1 _
        (sortedByKey_sortByKey _ _) (entryOfPair p) hmem rfl ?_
      intro b hb hbk
      rw [mem_sortByKey] at hb
      obtain ⟨q, hq, rfl⟩ := List.mem_map.mp hb
      by_cases hpq : q = p
      · rw [hpq]
      · exact absurd hbk (hextS q hq p hp hpq)
    rw [searchCrossIndexForCatalogNumber, if_neg (Nat.not_le.mpr hlen2), hslot]
    show (match lookupByKey CrossIndexEntry.catalogNumber p.1
        (sortByKey CrossIndexEntry.catalogNumber (pairs.map entryOfPair)) with
      | some e => e.celCatalogNumber
      | none => InvalidIndex) = p.2
    rw [hlook]
    rfl
  · have hfind : (sortByKey CrossIndexEntry.catalogNumber (pairs.map entryOfPair)).find?
        (fun o => p.2 == o.celCatalogNumber) = some (entryOfPair p) := by
      have hpa : (fun o : CrossIndexEntry => p.2 == o.celCatalogNumber) (entryOfPair p) = true := by
        simp [entryOfPair]
      refine find?_unique (fun o => p.2 == o.celCatalogNumber) _ (entryOfPair p) hmem hpa ?_
      intro b hb hbk
      rw [mem_sortByKey] at hb
      obtain ⟨q, hq, rfl⟩ := List.mem_map.mp hb
      by_cases hpq : q = p
      · rw [hpq]
      · have hq2 : q.2 = p.2 := by
          have : (p.2 == (entryOfPair q).celCatalogNumber) = true := hbk
          simpa [entryOfPair] using (eq_of_beq this).symm
        exact absurd hq2 (hintS q hq p hp hpq)
    rw [crossIndex, if_neg (Nat.not_le.mpr hlen2), hslot]
    show (match (sortByKey CrossIndexEntry.catalogNumber (pairs.map entryOfPair)).find?
        (fun o => p.2 == o.celCatalogNumber) with
      | some e => e.catalogNumber
      | none => InvalidIndex) = p.1
    rw [hfind]
    rfl

/-- Witness for the amended C6 at the two-pair stream (5 ↦ 100, 7 ↦ 200). -/
theorem crossIndex_round_trip_witness :
    (loadCrossIndex DB.empty HenryDraper (encodeCrossStream [(5, 100), (7, 200)])).2 = true ∧
    ∀ p ∈ [((5 : Nat), (100 : Nat)), (7, 200)],
      searchCrossIndexForCatalogNumber
        (loadCrossIndex DB.empty HenryDraper (encodeCrossStream [(5, 100), (7, 200)])).1
        HenryDraper p.1 = p.2 ∧
      crossIndex
        (loadCrossIndex DB.empty HenryDraper (encodeCrossStream [(5, 100), (7, 200)])).1
        HenryDraper p.2 = p.1 :=
  crossIndex_round_trip DB.empty HenryDraper (by decide) [(5, 100), (7, 200)]
    (by decide) (by decide) (by decide)

/-- C6 counterexample: the stream loads the pairs (1 ↦ 100) and (2 ↦ 100);
for the loaded pair (2, 100) the claim demands `crossIndex 100 = 2`, but
the linear scan returns the first entry with internal number 100, namely
external number 1. -/
theorem crossIndex_round_trip_counterexample :
    (loadCrossIndex DB.empty HenryDraper (encodeCrossStream [(1, 100), (2, 100)])).2 = true ∧
    ((2 : Nat), (100 : Nat)) ∈ [((1 : Nat), (100 : Nat)), (2, 100)] ∧
    crossIndex (loadCrossIndex DB.empty HenryDraper
      (encodeCrossStream [(1, 100), (2, 100)])).1 HenryDraper 100 = 1 ∧
    (1 : Nat) ≠ 2 := by
  decide

/-- C10: when a table is already loaded for a catalog kind, a subsequent
`loadCrossIndex` for that kind destroys it before validating the new
stream, so after a failed load (bad magic, bad version, truncated pair)
the prior table's mappings are gone: the slot holds no table and every
external-number lookup returns the not-found sentinel. -/
theorem loadCrossIndex_failure_destroys_prior (db : DB) (catalog : Nat)
    (bytes : List Byte) (hc : catalog < db.crossIndexes.length)
    (tbl : List CrossIndexEntry)
    (hprior : db.crossIndexes.getD catalog none = some tbl)
    (hfail : (loadCrossIndex db catalog bytes).2 = false) :
    (loadCrossIndex db catalog bytes).1.crossIndexes.getD catalog none = none ∧
    ∀ ext, searchCrossIndexForCatalogNumber (loadCrossIndex db catalog bytes).1
      catalog ext = InvalidIndex := by
  have hslot : (loadCrossIndex db catalog bytes).1.crossIndexes.getD catalog none = none := by
    rw [loadCrossIndex] at hfail ⊢
    rw [if_neg (Nat.not_le.mpr hc)] at hfail ⊢
    have hset : ((db.crossIndexes.set catalog none).getD catalog none) = none :=
      getD_set_self _ _ _ _ hc
    cases hp : parseCrossStream bytes with
    | none => simpa using hset
    | some entries =>
        rw [hp] at hfail
        simp at hfail
  refine ⟨hslot, ?_⟩
  intro ext
  rw [searchCrossIndexForCatalogNumber]
  by_cases hl : (loadCrossIndex db catalog bytes).1.crossIndexes.length ≤ catalog
  · rw [if_pos hl]
  · rw [if_neg hl, hslot]

/-- Witness for C10: a Henry-Draper table (5 ↦ 100) is loaded, then a
one-byte stream (bad magic) fails; afterwards the slot is empty and the
lookup of 5 yields the sentinel. -/
theorem loadCrossIndex_failure_destroys_prior_witness :
    ((loadCrossIndex { DB.empty with
        crossIndexes := [some [{ catalogNumber := 5, celCatalogNumber := 100 }], none, none] }
        HenryDraper [0]).1.crossIndexes.getD HenryDraper none = none ∧
      ∀ ext, searchCrossIndexForCatalogNumber
        ((loadCrossIndex { DB.empty with
          crossIndexes := [some [{ catalogNumber := 5, celCatalogNumber := 100 }], none, none] }
          HenryDraper [0]).1) HenryDraper ext = InvalidIndex) ∧
    searchCrossIndexForCatalogNumber
      { DB.empty with
        crossIndexes := [some [{ catalogNumber := 5, celCatalogNumber := 100 }], none, none] }
      HenryDraper 5 = 100 := by
  refine ⟨?_, by decide⟩
  exact loadCrossIndex_failure_destroys_prior _ HenryDraper [0] (by decide)
    [{ catalogNumber := 5, celCatalogNumber := 100 }] (by decide) (by decide)

theorem takeWhile_append_neg (p : α → Bool) (l : List α) (c : α) (hc : p c = false) :
    (l ++ [c]).takeWhile p = l.takeWhile p := by
  induction l with
  | nil => simp [List.takeWhile, hc]
  | cons x xs ih =>
      simp only [List.cons_append, List.takeWhile_cons]
      cases p x <;> simp [ih]

theorem dropWhile_append_neg (p : α → Bool) (l : List α) (c : α) (hc : p c = false) :
    (l ++ [c]).dropWhile p = l.dropWhile p ++ [c] := by
  induction l with
  | nil => simp [List.dropWhile, hc]
  | cons x xs ih =>
      simp only [List.cons_append, List.dropWhile_cons]
      cases p x <;> simp [ih]

theorem dropWhile_append_ne_nil (p : α → Bool) (l l' : List α)
    (h : l.dropWhile p ≠ []) : (l ++ l').dropWhile p = l.dropWhile p ++ l' := by
  induction l with
  | nil => exact absurd rfl h
  | cons x xs ih =>
      by_cases hx : p x = true
      · rw [List.dropWhile_cons_of_pos hx] at h
        rw [List.cons_append, List.dropWhile_cons_of_pos hx, List.dropWhile_cons_of_pos hx]
        exact ih h
      · rw [List.cons_append, List.dropWhile_cons_of_neg (by simpa using hx),
            List.dropWhile_cons_of_neg (by simpa using hx)]
        rfl

theorem head?_append_ne_nil (l l' : List α) (h : l ≠ []) :
    (l ++ l').head? = l.head? := by
  cases l with
  | nil => exact absurd rfl h
  | cons x xs => rfl

theorem tail_append_ne_nil (l l' : List α) (h : l ≠ []) :
    (l ++ l').tail = l.tail ++ l' := by
  cases l with
  | nil => exact absurd rfl h
  | cons x xs => rfl

theorem scanUInt_append (l : List Byte) (c : Byte) (hc : isDigitB c = false)
    (v : Nat) (rest : List Byte) (h : scanUInt l = some (v, rest)) :
    scanUInt (l ++ [c]) = some (v, rest ++ [c]) := by
  rw [scanUInt] at h ⊢
  simp only at h ⊢
  by_cases hl1 : l.dropWhile isSpaceB = []
  · rw [hl1] at h
    simp at h
  · rw [dropWhile_append_ne_nil isSpaceB l [c] hl1,
        head?_append_ne_nil _ _ hl1,
        tail_append_ne_nil _ _ hl1]
    have hif : ∀ (b : Bool) (t e : List Byte),
        (if b = true then t ++ [c] else e ++ [c]) = (if b = true then t else e) ++ [c] := by
      intro b t e
      cases b <;> simp
    rw [hif]
    rw [takeWhile_append_neg isDigitB _ c hc, dropWhile_append_neg isDigitB _ c hc]
    by_cases hds : (((if ((l.dropWhile isSpaceB).head? == some 45 ||
        (l.dropWhile isSpaceB).head? == some 43) = true then (l.dropWhile isSpaceB).tail
        else l.dropWhile isSpaceB).takeWhile isDigitB)).isEmpty
    · rw [if_pos hds] at h
      cases h
    · rw [if_neg hds] at h ⊢
      rw [Option.some_inj] at h
      have h1 := congrArg Prod.fst h
      have h2 := congrArg Prod.snd h
      simp only at h1 h2
      rw [h1, h2]

theorem scanTrailingChar_append (rest : List Byte) (c : Byte)
    (hcs : isSpaceB c = false) (h : scanTrailingChar rest = false) :
    scanTrailingChar (rest ++ [c]) = true := by
  rw [scanTrailingChar] at h ⊢
  simp only [Bool.not_eq_false'] at h
  rw [List.isEmpty_iff] at h
  by_cases hr : rest.dropWhile isSpaceB = []
  · rw [List.dropWhile_append, hr]
    simp [List.dropWhile, hcs]
  · exact absurd h hr

/-- C9 (amended): for the `#N` form and each simple prefixed form
(HIP, HD, SAO), a successful parse admits no trailing non-whitespace: the
same name extended by a non-space, non-digit byte no longer parses.
Prefix matching is case-insensitive for every prefixed form: it only
depends on the name through its lowercase image.  (The Tycho form is the
exception the counterexample exhibits: its scan has no trailing-character
check.) -/
theorem strict_format_and_case_insensitive (name : List Byte) (c : Byte)
    (hcs : isSpaceB c = false) (hcd : isDigitB c = false) :
    (∀ pfx v, parseSimpleCatalogNumber name pfx = some v →
       parseSimpleCatalogNumber (name ++ [c]) pfx = none) ∧
    (∀ v, parseCelestiaCatalogNumber name = some v →
       parseCelestiaCatalogNumber (name ++ [c]) = none) ∧
    (∀ name2 pfx, name2.map toLowerB = name.map toLowerB →
       matchIgnoreCase name2 pfx = matchIgnoreCase name pfx) := by
  refine ⟨?_, ?_, ?_⟩
  · intro pfx v h
    rw [parseSimpleCatalogNumber] at h ⊢
    by_cases hm : matchIgnoreCase name pfx = true
    · rw [if_pos hm] at h
      have hmparts : (decide (pfx.length ≤ name.length) &&
          ((name.take pfx.length).map toLowerB == pfx.map toLowerB)) = true := hm
      rw [Bool.and_eq_true] at hmparts
      have hlen : pfx.length ≤ name.length := of_decide_eq_true hmparts.1
      have hm2 : matchIgnoreCase (name ++ [c]) pfx = true := by
        rw [matchIgnoreCase, List.take_append_of_le_length hlen, Bool.and_eq_true]
        refine ⟨decide_eq_true ?_, hmparts.2⟩
        simp only [List.length_append, List.length_cons, List.length_nil]
        omega
      rw [if_pos hm2, List.drop_append_of_le_length hlen]
      cases hs : scanUInt (name.drop pfx.length) with
      | none => rw [hs] at h; simp at h
      | some pr =>
          obtain ⟨num, rest⟩ := pr
          rw [hs] at h
          have ht : scanTrailingChar rest = false := by
            by_contra hcontra
            rw [Bool.not_eq_false] at hcontra
            simp [hcontra] at h
          rw [scanUInt_append _ c hcd num rest hs]
          simp [scanTrailingChar_append rest c hcs ht]
    · rw [if_neg hm] at h
      cases h
  · intro v h
    cases hn : name with
    | nil => rw [hn] at h; cases h
    | cons b0 rest =>
        subst hn
        rw [parseCelestiaCatalogNumber] at h
        rw [List.cons_append, parseCelestiaCatalogNumber]
        by_cases hb0 : b0 = 35
        · rw [if_pos hb0] at h ⊢
          cases hs : scanUInt rest with
          | none => rw [hs] at h; simp at h
          | some pr =>
              obtain ⟨num, r1⟩ := pr
              rw [hs] at h
              have ht : scanTrailingChar r1 = false := by
                by_contra hcontra
                rw [Bool.not_eq_false] at hcontra
                simp [hcontra] at h
              rw [scanUInt_append _ c hcd num r1 hs]
              simp [scanTrailingChar_append r1 c hcs ht]
        · rw [if_neg hb0] at h
          cases h
  · intro name2 pfx hmap
    rw [matchIgnoreCase, matchIgnoreCase]
    have hlen : name2.length = name.length := by
      have := congrArg List.length hmap
      simpa using this
    rw [hlen]
    have htake : (name2.take pfx.length).map toLowerB =
        (name.take pfx.length).map toLowerB := by
      rw [List.map_take, List.map_take, hmap]
    rw [htake]

/-- Witness for the amended C9 at "HIP 5" extended by 'x' (byte 120). -/
theorem strict_format_and_case_insensitive_witness :
    ((∀ pfx v, parseSimpleCatalogNumber [72, 73, 80, 32, 53] pfx = some v →
        parseSimpleCatalogNumber ([72, 73, 80, 32, 53] ++ [120]) pfx = none) ∧
      (∀ v, parseCelestiaCatalogNumber [72, 73, 80, 32, 53] = some v →
        parseCelestiaCatalogNumber ([72, 73, 80, 32, 53] ++ [120]) = none) ∧
      (∀ name2 pfx, name2.map toLowerB = List.map toLowerB [72, 73, 80, 32, 53] →
        matchIgnoreCase name2 pfx = matchIgnoreCase [72, 73, 80, 32, 53] pfx)) ∧
    parseSimpleCatalogNumber ([72, 73, 80, 32, 53] ++ [120]) HIPPARCOSCatalogPfx = none ∧
    parseSimpleCatalogNumber [72, 73, 80, 32, 53] HIPPARCOSCatalogPfx = some 5 := by
  refine ⟨strict_format_and_case_insensitive [72, 73, 80, 32, 53] 120
    (by decide) (by decide), ?_, by decide⟩
  exact (strict_format_and_case_insensitive [72, 73, 80, 32, 53] 120
    (by decide) (by decide)).1 HIPPARCOSCatalogPfx 5 (by decide)

/-- C9 counterexample: "TYC 1-2-3x" carries the trailing non-whitespace
byte 'x' after the numbers, yet `parseTychoCatalogNumber` accepts it
(yielding the same packed number as "TYC 1-2-3"): the Tycho scan has no
trailing-character check, contradicting the claimed strict-format
rejection for the TYC form. -/
theorem tycho_trailing_accepted_counterexample :
    parseTychoCatalogNumber [84, 89, 67, 32, 49, 45, 50, 45, 51, 120] = some 3000020001 ∧
    isSpaceB 120 = false ∧ isDigitB 120 = false ∧
    parseTychoCatalogNumber [84, 89, 67, 32, 49, 45, 50, 45, 51] = some 3000020001 := by
  decide

/-- C5: `findCatalogNumberByName` equals the resolution procedure the spec
enumerates — name database first (hit returns immediately), then `#N`,
`HIP`, `TYC`, `HD` via the Henry-Draper cross-index, `SAO` via the SAO
cross-index, else the not-found sentinel — and in particular a
name-database hit takes precedence over every prefix-parsing path.  (The
name-database service never stores empty names, which its `add` skips.) -/
theorem findCatalogNumberByName_order (db : DB) (name : List Byte)
    (hne : ∀ entries, db.names = some entries → ∀ e ∈ entries, e.2 ≠ ([] : List Byte)) :
    findCatalogNumberByName db name = specResolveName db name ∧
    (∀ entries n, db.names = some entries → nameDBFind entries name = some n →
      findCatalogNumberByName db name = n) := by
  constructor
  · by_cases hn : name.isEmpty = true
    · have hname : name = [] := List.isEmpty_iff.mp hn
      subst hname
      rw [findCatalogNumberByName, if_pos hn, specResolveName]
      cases hdb : db.names with
      | none => rfl
      | some entries =>
          have hfind : nameDBFind entries [] = none := by
            rw [nameDBFind]
            have : entries.find? (fun e => e.2 == ([] : List Byte)) = none := by
              rw [List.find?_eq_none]
              intro e he
              have := hne entries hdb e he
              simpa using this
            rw [this]
          rw [Option.some_bind, hfind]
          rfl
    · rw [findCatalogNumberByName, if_neg hn, specResolveName]
      cases hdb : db.names with
      | none => rfl
      | some entries => rfl
  · intro entries n hdb hfind
    have hn : ¬ name.isEmpty = true := by
      intro hcontra
      have hname : name = [] := List.isEmpty_iff.mp hcontra
      subst hname
      rw [nameDBFind] at hfind
      cases hf : entries.find? (fun e => e.2 == ([] : List Byte)) with
      | none => rw [hf] at hfind; cases hfind
      | some e =>
          have hprop := List.find?_some hf
          have hmem := List.mem_of_find?_eq_some hf
          exact hne entries hdb e hmem (by simpa using hprop)
    rw [findCatalogNumberByName, if_neg hn, hdb]
    show (match nameDBFind entries name with
      | some m => m
      | none => resolveByParse db name) = n
    rw [hfind]

/-- Witness for C5: a database whose name service files "HIP 5" under
catalog number 42 resolves "HIP 5" to 42 through the name path, although
the HIP parse path would give 5. -/
theorem findCatalogNumberByName_order_witness :
    (findCatalogNumberByName
        { DB.empty with names := some [(42, [72, 73, 80, 32, 53])] } [72, 73, 80, 32, 53] =
      specResolveName
        { DB.empty with names := some [(42, [72, 73, 80, 32, 53])] } [72, 73, 80, 32, 53] ∧
      (∀ entries n,
        ({ DB.empty with names := some [(42, [72, 73, 80, 32, 53])] } : DB).names = some entries →
        nameDBFind entries [72, 73, 80, 32, 53] = some n →
        findCatalogNumberByName
          { DB.empty with names := some [(42, [72, 73, 80, 32, 53])] } [72, 73, 80, 32, 53] = n)) ∧
    findCatalogNumberByName
      { DB.empty with names := some [(42, [72, 73, 80, 32, 53])] } [72, 73, 80, 32, 53] = 42 ∧
    parseHIPPARCOSCatalogNumber [72, 73, 80, 32, 53] = some 5 := by
  refine ⟨findCatalogNumberByName_order _ _ (by decide), by decide, by decide⟩

/-- C7: for components a < 10000, b < 100000 with the packed number
`a + b*10000 + c*1000000000` above the maximum plain Hipparcos number and
at most the maximum Tycho catalog number, the display synthesizer
decomposes the packed number back into exactly (a, b, c) and produces the
bytes of "TYC a-b-c", both in `getStarNameList` and in
`catalogNumberToString`. -/
theorem tycho_packing_round_trip (a b c : Nat) (ha : a < 10000) (hb : b < 100000)
    (hlow : MAX_HIPPARCOS_NUMBER < a + b * 10000 + c * 1000000000)
    (hhigh : a + b * 10000 + c * 1000000000 ≤ MaxTychoCatalogNumber) :
    (a + b * 10000 + c * 1000000000) / 1000000000 = c ∧
    (a + b * 10000 + c * 1000000000 - c * 1000000000) / 10000 = b ∧
    a + b * 10000 + c * 1000000000 - c * 1000000000 - b * 10000 = a ∧
    synthesizedName (a + b * 10000 + c * 1000000000) =
      some (TychoCatalogPfx ++ natDecimalBytes a ++ [45] ++ natDecimalBytes b ++
        [45] ++ natDecimalBytes c) ∧
    catalogNumberToString (a + b * 10000 + c * 1000000000) =
      TychoCatalogPfx ++ natDecimalBytes a ++ [45] ++ natDecimalBytes b ++
        [45] ++ natDecimalBytes c := by
  have hMH : MAX_HIPPARCOS_NUMBER = 999999 := rfl
  have hMT : MaxTychoCatalogNumber = 4026531840 := rfl
  rw [hMH] at hlow
  rw [hMT] at hhigh
  have h3 : (a + b * 10000 + c * 1000000000) / 1000000000 = c := by omega
  have h2 : (a + b * 10000 + c * 1000000000 - c * 1000000000) / 10000 = b := by omega
  have h1 : a + b * 10000 + c * 1000000000 - c * 1000000000 - b * 10000 = a := by omega
  refine ⟨h3, h2, h1, ?_, ?_⟩
  · have hcond : a + b * 10000 + c * 1000000000 ≠ InvalidIndex ∧
        a + b * 10000 + c * 1000000000 ≠ 0 ∧
        a + b * 10000 + c * 1000000000 ≤ MaxTychoCatalogNumber := by
      rw [InvalidIndex, hMT]
      omega
    rw [synthesizedName, if_pos hcond, if_pos (by omega)]
    simp only [h3, h2, h1]
  · rw [catalogNumberToString, if_neg (by rw [hMH]; omega)]
    simp only [h3, h2, h1]

/-- Witness for C7 at (a, b, c) = (1, 2, 3), packed number 3000020001. -/
theorem tycho_packing_round_trip_witness :
    (1 + 2 * 10000 + 3 * 1000000000) / 1000000000 = 3 ∧
    (1 + 2 * 10000 + 3 * 1000000000 - 3 * 1000000000) / 10000 = 2 ∧
    1 + 2 * 10000 + 3 * 1000000000 - 3 * 1000000000 - 2 * 10000 = 1 ∧
    synthesizedName (1 + 2 * 10000 + 3 * 1000000000) =
      some (TychoCatalogPfx ++ natDecimalBytes 1 ++ [45] ++ natDecimalBytes 2 ++
        [45] ++ natDecimalBytes 3) ∧
    catalogNumberToString (1 + 2 * 10000 + 3 * 1000000000) =
      TychoCatalogPfx ++ natDecimalBytes 1 ++ [45] ++ natDecimalBytes 2 ++
        [45] ++ natDecimalBytes 3 :=
  tycho_packing_round_trip 1 2 3 (by decide) (by decide) (by decide) (by decide)

theorem mem_ite_replicate_append (c : Prop) [Decidable c] (n m : Nat)
    (a b x : α)
    (h : x ∈ (if c then List.replicate n a else []) ++ List.replicate m b) :
    (c ∧ x = a) ∨ x = b := by
  rcases List.mem_append.mp h with h1 | h1
  · split at h1
    · exact Or.inl ⟨by assumption, List.eq_of_mem_replicate h1⟩
    · simp at h1
  · exact Or.inr (List.eq_of_mem_replicate h1)

theorem mem_ite_replicate (c : Prop) [Decidable c] (n : Nat) (a x : α)
    (h : x ∈ (if c then List.replicate n a else [])) : c ∧ x = a := by
  split at h
  · exact ⟨by assumption, List.eq_of_mem_replicate h⟩
  · simp at h

theorem modifyExisting_true_not_shared (i : DetInput)
    (h : (if i.disposition = Disposition.modify then !i.existingShared
          else false) = true) :
    i.existingShared = false := by
  split at h
  · simpa using h
  · cases h

/-- C2: during every text-catalog `createStar` run, a shared details record
is never mutated in place: every details-setter event targets a record
that was either freshly cloned in that call or already non-shared before
the call. -/
theorem details_never_mutated_while_shared (i : DetInput) :
    ∀ e ∈ createStarDetailsRun i, e.safe = true := by
  intro e he
  simp only [createStarDetailsRun] at he
  split at he
  · simp at he
  · split at he
    · split at he
      · split at he
        · rcases mem_ite_replicate_append _ _ _ _ _ _ he with ⟨hc, rfl⟩ | rfl
          · rw [Bool.and_eq_true] at hc
            simp [MutEvent.safe, modifyExisting_true_not_shared i hc.1]
          · split
            · rename_i hm
              split
              · rename_i hs
                simpa [MutEvent.safe] using hs
              · rfl
            · rfl
        · rcases mem_ite_replicate_append _ _ _ _ _ _ he with ⟨hc, rfl⟩ | rfl
          · rw [Bool.and_eq_true] at hc
            simp [MutEvent.safe, modifyExisting_true_not_shared i hc.1]
          · split
            · rename_i hm
              split
              · rename_i hs
                simpa [MutEvent.safe] using hs
              · rfl
            · rfl
      · rcases mem_ite_replicate_append _ _ _ _ _ _ he with ⟨hc, rfl⟩ | rfl
        · rw [Bool.and_eq_true] at hc
          simp [MutEvent.safe, modifyExisting_true_not_shared i hc.1]
        · split
          · rename_i hm
            split
            · rename_i hs
              simpa [MutEvent.safe] using hs
            · rfl
          · rfl
    · obtain ⟨hc, rfl⟩ := mem_ite_replicate _ _ _ _ he
      rw [Bool.and_eq_true] at hc
      simp [MutEvent.safe, modifyExisting_true_not_shared i hc.1]

/-- Witness for C2: a Modify definition with a texture on a star whose
details are already customized produces mutation events, all safe. -/
theorem details_never_mutated_while_shared_witness :
    (⟨false, false⟩ : MutEvent) ∈ createStarDetailsRun
      { disposition := Disposition.modify, isBarycenter := false,
        spectralGiven := true, spectralValid := true, existingShared := false,
        existingKnowsTexture := false, existingKnowsRotation := false,
        hasTexture := true, hasModel := false, hasRotationModel := false,
        hasSemiAxes := false, hasRadius := false, hasTemperature := false,
        hasBolometricCorrection := false, hasInfoURL := false,
        hasOrbit := false, barycenterDefined := false,
        barycenterResolvable := false } ∧
    MutEvent.safe ⟨false, false⟩ = true :=
  ⟨by decide,
   details_never_mutated_while_shared
     { disposition := Disposition.modify, isBarycenter := false,
       spectralGiven := true, spectralValid := true, existingShared := false,
       existingKnowsTexture := false, existingKnowsRotation := false,
       hasTexture := true, hasModel := false, hasRotationModel := false,
       hasSemiAxes := false, hasRadius := false, hasTemperature := false,
       hasBolometricCorrection := false, hasInfoURL := false,
       hasOrbit := false, barycenterDefined := false,
       barycenterResolvable := false } ⟨false, false⟩ (by decide)⟩

/-- C4: a Modify definition whose catalog number (given directly or
resolved from the first name) matches no existing star is logged and
skipped without mutating the database — no star is added, the star count
and name database are untouched — and the load call still returns
success. -/
theorem modify_nonexistent_unchanged (ext : Ext) (db : DB) (df : StcDef)
    (hd : df.disposition = Disposition.modify)
    (hmiss : modifyTarget db df = none) :
    loadStep ext db df = db ∧ load ext db [df] = (db, true) := by
  have hstep : loadStep ext db df = db := by
    simp [loadStep, hd, hmiss]
  exact ⟨hstep, by simp [load, hstep]⟩

/-- Witness for C4: Modify with number 99 on the empty database. -/
theorem modify_nonexistent_unchanged_witness :
    loadStep extTriv DB.empty
      { disposition := Disposition.modify, isStar := true,
        catalogNumber := some 99, objName := [], data := {} } = DB.empty ∧
    load extTriv DB.empty
      [{ disposition := Disposition.modify, isStar := true,
         catalogNumber := some 99, objName := [], data := {} }] = (DB.empty, true) :=
  modify_nonexistent_unchanged extTriv DB.empty _ rfl (by decide)

/-- C3 (amended, the order the code supports): loading A (number 10)
before B (number 20, orbit with OrbitBarycenter 10) and then finishing
resolves B's parent-barycenter reference to the star with number 10 and
puts B into that star's orbiting set. -/
theorem barycenter_scenario_A_then_B :
    (dbFind (finish (load extTriv DB.empty [defStarA, defStarB]).1) 20).map
      Star.orbitBary = some (some 10) ∧
    (dbFind (finish (load extTriv DB.empty [defStarA, defStarB]).1) 10).map
      Star.orbiting = some [20] ∧
    (load extTriv DB.empty [defStarA, defStarB]).2 = true := by
  decide

/-- C3 counterexample: in the order B before A, B's definition fails
during the load pass (its barycenter cannot yet be located provisionally)
and is skipped, so after `finish()` there is no star 20 at all — B's
parent-barycenter reference cannot resolve, refuting the claim's
either-order guarantee. -/
theorem barycenter_scenario_B_then_A_counterexample :
    dbFind (finish (load extTriv DB.empty [defStarB, defStarA]).1) 20 = none ∧
    (load extTriv DB.empty [defStarB, defStarA]).1.nStars = 1 ∧
    (dbFind (finish (load extTriv DB.empty [defStarB, defStarA]).1) 10).isSome = true := by
  decide

/-! ### C8: idempotence of Replace -/

theorem opt_getD_getD {α : Type} (o : Option α) (a : α) :
    o.getD (o.getD a) = o.getD a := by
  cases o <;> rfl

theorem applyOverwrite_idem (s : Star) (ow : StarOverwrite) :
    applyOverwrite (applyOverwrite s ow) ow = applyOverwrite s ow := by
  simp [applyOverwrite, opt_getD_getD]

theorem applyOverwrite_empty (s : Star) : applyOverwrite s {} = s := rfl

theorem applyMagnitude_factor (ext : Ext) (d : StarData) (s : Star)
    (ow : StarOverwrite) (P : StarPos) (hpos : ow.pos = some P)
    (m : ℚ) (ad : Bool) :
    applyMagnitude (applyOverwrite s ow) ext d (some m) ad =
      applyOverwrite s (outcomeApplyMag ext d ow m ad) := by
  unfold applyMagnitude outcomeApplyMag
  cases he : d.extinction with
  | none => rfl
  | some e0 =>
      simp only [applyOverwrite, hpos, Option.getD_some]
      split <;> split <;> rfl

theorem createStarMag_factor (ext : Ext) (db : DB) (s : Star) (disp : Disposition)
    (d : StarData) (isB : Bool) (ow : StarOverwrite) (P : StarPos)
    (hpos : ow.pos = some P) (hd : disp ≠ Disposition.modify) :
    createStarMag ext db (applyOverwrite s ow) disp d isB =
      ((outcomeMag ext d isB ow).1,
       applyOverwrite s (outcomeMag ext d isB ow).2, db) := by
  unfold createStarMag outcomeMag
  cases isB with
  | true => rfl
  | false =>
      simp only [Bool.false_eq_true, if_false]
      cases hm : d.absMag with
      | some m => simp only [applyMagnitude_factor ext d s ow P hpos m true]
      | none =>
          cases ha : d.appMag with
          | none => simp only [if_pos hd]
          | some am =>
              have hp2 : (applyOverwrite s ow).pos = P := by
                simp [applyOverwrite, hpos]
              simp only [hp2, hpos, Option.getD_some]
              split
              · rfl
              · simp only [applyMagnitude_factor ext d s ow P hpos _ false]

theorem createStarRest_factor (ext : Ext) (db : DB) (s : Star) (disp : Disposition)
    (n : Nat) (d : StarData) (isB : Bool) (details : DetTerm)
    (baryPos : Option StarPos) (hd : disp ≠ Disposition.modify) :
    createStarRest ext db s disp n d isB details baryPos =
      ((outcomeRest ext n d isB details baryPos).1,
       applyOverwrite s (outcomeRest ext n d isB details baryPos).2, db) := by
  have how2 : ({ s with details := details, index := n } : Star) =
      applyOverwrite s { details := some details, index := some n } := rfl
  cases baryPos with
  | some bp =>
      unfold createStarRest outcomeRest
      simp only [if_pos hd]
      exact createStarMag_factor ext db s disp d isB
        { index := some n, pos := some bp, details := some details } bp rfl hd
  | none =>
      unfold createStarRest outcomeRest
      simp only [if_pos hd, hd, if_neg (fun h => hd h), false_and, if_false]
      by_cases hra : d.ra.isNone = true
      · simp only [hra, true_and, if_pos hd, if_true, how2]
      · simp only [hra, false_and, if_false, Bool.false_eq_true]
        by_cases hdec : d.dec.isNone = true
        · simp only [hdec, true_and, if_pos hd, if_true, how2]
        · simp only [hdec, false_and, if_false, Bool.false_eq_true]
          by_cases hdist : d.distance.isNone = true
          · simp only [hdist, true_and, if_pos hd, if_true, how2]
          · simp only [hdist, false_and, if_false, Bool.false_eq_true]
            have hmp : (d.ra.isSome || d.dec.isSome || d.distance.isSome) = true := by
              simp only [Bool.or_eq_true, Option.isSome_iff_ne_none]
              left; left
              intro hcon
              exact hra (by simp [hcon])
            simp only [hmp, if_true, how2]
            exact createStarMag_factor ext db s disp d isB
              { index := some n,
                pos := some (StarPos.computed (ext.truncF (d.ra.getD 0))
                  (ext.truncF (d.dec.getD 0)) (ext.truncF (d.distance.getD 0))),
                details := some details }
              (StarPos.computed (ext.truncF (d.ra.getD 0))
                (ext.truncF (d.dec.getD 0)) (ext.truncF (d.distance.getD 0))) rfl hd

theorem outcomeApplyMag_index (ext : Ext) (d : StarData) (ow : StarOverwrite)
    (m : ℚ) (ad : Bool) : (outcomeApplyMag ext d ow m ad).index = ow.index := by
  unfold outcomeApplyMag
  split
  · dsimp only
    by_cases hc : ext.posNorm (ow.pos.getD (StarPos.words 0 0 0)) ≠ 0
    · simp only [if_pos hc]
      split <;> rfl
    · simp only [if_neg hc]
      split <;> rfl
  · rfl

theorem outcomeMag_index (ext : Ext) (d : StarData) (isB : Bool)
    (ow : StarOverwrite) : (outcomeMag ext d isB ow).2.index = ow.index := by
  unfold outcomeMag
  split
  · rfl
  · split
    · exact outcomeApplyMag_index ext d ow _ true
    · split
      · rfl
      · dsimp only
        split
        · rfl
        · exact outcomeApplyMag_index ext d ow _ false

theorem outcomeRest_index (ext : Ext) (n : Nat) (d : StarData) (isB : Bool)
    (details : DetTerm) (baryPos : Option StarPos) :
    (outcomeRest ext n d isB details baryPos).2.index = some n := by
  cases baryPos with
  | some bp =>
      simp only [outcomeRest]
      rw [outcomeMag_index]
  | none =>
      simp only [outcomeRest]
      split
      · rfl
      · split
        · rfl
        · split
          · rfl
          · rw [outcomeMag_index]
            split <;> rfl

theorem createStarOutcome_index (ext : Ext) (n : Nat) (d : StarData) (isB : Bool)
    (bcNo : Option Nat) (bp : Option StarPos) :
    (createStarOutcome ext n d isB bcNo bp).2.index = none ∨
    (createStarOutcome ext n d isB bcNo bp).2.index = some n := by
  unfold createStarOutcome
  cases isB with
  | true =>
      simp only [Bool.false_eq_true, reduceIte]
      split
      · split
        · cases bcNo with
          | some bc =>
              simp only [Bool.false_eq_true, reduceIte]
              split
              · exact Or.inl rfl
              · cases bp with
                | some p => exact Or.inr (outcomeRest_index ext n d _ _ _)
                | none => exact Or.inl rfl
          | none => exact Or.inr (outcomeRest_index ext n d _ _ _)
        · exact Or.inr (outcomeRest_index ext n d _ _ _)
      · exact Or.inr (outcomeRest_index ext n d _ _ _)
  | false =>
      simp only [Bool.false_eq_true, reduceIte]
      cases hs : d.spectralType with
      | none => exact Or.inl rfl
      | some sc =>
          simp only [Bool.false_eq_true, reduceIte]
          cases hg : ext.getStarDetails sc with
          | none => exact Or.inl rfl
          | some id =>
              simp only [Bool.false_eq_true, reduceIte]
              split
              · split
                · cases bcNo with
                  | some bc =>
                      simp only [Bool.false_eq_true, reduceIte]
                      split
                      · exact Or.inl rfl
                      · cases bp with
                        | some p => exact Or.inr (outcomeRest_index ext n d _ _ _)
                        | none => exact Or.inl rfl
                  | none => exact Or.inr (outcomeRest_index ext n d _ _ _)
                · exact Or.inr (outcomeRest_index ext n d _ _ _)
              · exact Or.inr (outcomeRest_index ext n d _ _ _)

theorem outcomeApplyMag_pos (ext : Ext) (d : StarData) (ow : StarOverwrite)
    (m : ℚ) (ad : Bool) : (outcomeApplyMag ext d ow m ad).pos = ow.pos := by
  unfold outcomeApplyMag
  split
  · simp only [Bool.false_eq_true, reduceIte]
    by_cases hc : ext.posNorm (ow.pos.getD (StarPos.words 0 0 0)) ≠ 0
    · simp only [if_pos hc]
      split <;> rfl
    · simp only [if_neg hc]
      split <;> rfl
  · rfl

theorem outcomeMag_pos (ext : Ext) (d : StarData) (isB : Bool)
    (ow : StarOverwrite) : (outcomeMag ext d isB ow).2.pos = ow.pos := by
  unfold outcomeMag
  split
  · rfl
  · split
    · exact outcomeApplyMag_pos ext d ow _ true
    · split
      · rfl
      · simp only [Bool.false_eq_true, reduceIte]
        split
        · rfl
        · exact outcomeApplyMag_pos ext d ow _ false

theorem outcomeRest_pos (ext : Ext) (n : Nat) (d : StarData) (isB : Bool)
    (details : DetTerm) (bp : StarPos) :
    (outcomeRest ext n d isB details (some bp)).2.pos = some bp := by
  simp only [outcomeRest]
  rw [outcomeMag_pos]

theorem createStarOutcome_pos_orbit (ext : Ext) (n : Nat) (d : StarData)
    (isB : Bool) (bc : Nat) (bp : Option StarPos) (hob : d.hasOrbit = true) :
    (createStarOutcome ext n d isB (some bc) bp).2.pos = none ∨
    (createStarOutcome ext n d isB (some bc) bp).2.pos = bp := by
  unfold createStarOutcome
  cases isB with
  | true =>
      simp only [hob, Bool.or_true, Bool.true_or, Bool.false_eq_true, reduceIte]
      split
      · exact Or.inl rfl
      · cases bp with
        | some p => exact Or.inr (outcomeRest_pos ext n d _ _ p)
        | none => exact Or.inl rfl
  | false =>
      simp only [hob, Bool.or_true, Bool.true_or, Bool.false_eq_true, reduceIte]
      cases hs : d.spectralType with
      | none => exact Or.inl rfl
      | some sc =>
          simp only [Bool.false_eq_true, reduceIte]
          cases hg : ext.getStarDetails sc with
          | none => exact Or.inl rfl
          | some id =>
              simp only [Bool.false_eq_true, reduceIte]
              split
              · exact Or.inl rfl
              · cases bp with
                | some p => exact Or.inr (outcomeRest_pos ext n d _ _ p)
                | none => exact Or.inl rfl

theorem createStarOutcome_orbit_none (ext : Ext) (n : Nat) (d : StarData)
    (isB : Bool) (bc : Nat) (hob : d.hasOrbit = true) :
    createStarOutcome ext n d isB (some bc) none = (false, {}) := by
  unfold createStarOutcome
  cases isB with
  | true =>
      simp only [hob, Bool.or_true, Bool.true_or, Bool.false_eq_true, reduceIte,
        ite_self]
  | false =>
      simp only [hob, Bool.or_true, Bool.true_or, Bool.false_eq_true, reduceIte,
        ite_self]
      cases hs : d.spectralType with
      | none => rfl
      | some sc =>
          simp only [Bool.false_eq_true, reduceIte, ite_self]
          cases hg : ext.getStarDetails sc with
          | none => rfl
          | some id => simp only [Bool.false_eq_true, reduceIte, ite_self]

theorem createStarOutcome_orbit_success (ext : Ext) (n : Nat) (d : StarData)
    (isB : Bool) (bc : Nat) (bp : Option StarPos)
    (hok : (createStarOutcome ext n d isB (some bc) bp).1 = true)
    (hob : d.hasOrbit = true) :
    bp.isSome = true := by
  cases bp with
  | some p => rfl
  | none =>
      rw [createStarOutcome_orbit_none ext n d isB bc hob] at hok
      exact Bool.noConfusion hok

theorem createStar_factor (ext : Ext) (db : DB) (s : Star) (disp : Disposition)
    (n : Nat) (d : StarData) (isB : Bool) (hd : disp ≠ Disposition.modify) :
    ∃ B, createStar ext db s disp n d isB =
      ((createStarOutcome ext n d isB (resolveBcNo db d) (resolveBp db d)).1,
       applyOverwrite s (createStarOutcome ext n d isB (resolveBcNo db d)
         (resolveBp db d)).2,
       { db with barycenters := B }) := by
  have hmed : (if disp = Disposition.modify then !s.details.sharedFlag else false)
      = false := by
    simp [hd]
  unfold createStar createStarOutcome
  cases isB with
  | true =>
      simp only [if_true, hmed, Bool.false_eq_true, if_false]
      by_cases hae : (d.texture.isSome || d.mesh.isSome || d.hasOrbit ||
          d.semiAxes.isSome || d.radius.isSome ||
          (match d.temperature with
           | some t => decide (0 < t)
           | none => false) ||
          d.boloCorrection.isSome || d.hasRotationModel || d.infoURL.isSome) = true
      · simp only [if_pos hae]
        by_cases hob : d.hasOrbit = true
        · simp only [if_pos hob]
          cases hbc : resolveBcNo db d with
          | none =>
              exact ⟨db.barycenters,
                createStarRest_factor ext db s disp n d true _ none hd⟩
          | some bc =>
              by_cases hbcinv : bc = InvalidIndex
              · simp only [if_pos hbcinv]
                exact ⟨db.barycenters, rfl⟩
              · simp only [if_neg hbcinv]
                have hrbp : resolveBp db d = baryPosLookup db bc := by
                  simp [resolveBp, hob, hbc, hbcinv]
                have hlk : baryPosLookup
                    { db with barycenters := db.barycenters ++ [(n, bc)] } bc =
                    baryPosLookup db bc := rfl
                rw [hrbp, hlk]
                cases hbp : baryPosLookup db bc with
                | none => exact ⟨db.barycenters ++ [(n, bc)], rfl⟩
                | some bpv =>
                    exact ⟨db.barycenters ++ [(n, bc)],
                      createStarRest_factor ext
                        { db with barycenters := db.barycenters ++ [(n, bc)] }
                        s disp n d true _ (some bpv) hd⟩
        · simp only [if_neg hob]
          exact ⟨db.barycenters,
            createStarRest_factor ext db s disp n d true _ none hd⟩
      · simp only [if_neg hae]
        exact ⟨db.barycenters,
          createStarRest_factor ext db s disp n d true _ none hd⟩
  | false =>
      simp only [Bool.false_eq_true, if_false, hmed]
      cases hs : d.spectralType with
      | none =>
          simp only [if_neg hd]
          exact ⟨db.barycenters, rfl⟩
      | some sc =>
          simp only []
          cases hg : ext.getStarDetails sc with
          | none => exact ⟨db.barycenters, rfl⟩
          | some id =>
              simp only []
              by_cases hae : (d.texture.isSome || d.mesh.isSome || d.hasOrbit ||
                  d.semiAxes.isSome || d.radius.isSome ||
                  (match d.temperature with
                   | some t => decide (0 < t)
                   | none => false) ||
                  d.boloCorrection.isSome || d.hasRotationModel ||
                  d.infoURL.isSome) = true
              · simp only [if_pos hae]
                by_cases hob : d.hasOrbit = true
                · simp only [if_pos hob]
                  cases hbc : resolveBcNo db d with
                  | none =>
                      exact ⟨db.barycenters,
                        createStarRest_factor ext db s disp n d false _ none hd⟩
                  | some bc =>
                      by_cases hbcinv : bc = InvalidIndex
                      · simp only [if_pos hbcinv]
                        exact ⟨db.barycenters, rfl⟩
                      · simp only [if_neg hbcinv]
                        have hrbp : resolveBp db d = baryPosLookup db bc := by
                          simp [resolveBp, hob, hbc, hbcinv]
                        have hlk : baryPosLookup
                            { db with barycenters := db.barycenters ++ [(n, bc)] }
                            bc = baryPosLookup db bc := rfl
                        rw [hrbp, hlk]
                        cases hbp : baryPosLookup db bc with
                        | none => exact ⟨db.barycenters ++ [(n, bc)], rfl⟩
                        | some bpv =>
                            exact ⟨db.barycenters ++ [(n, bc)],
                              createStarRest_factor ext
                                { db with barycenters :=
                                    db.barycenters ++ [(n, bc)] }
                                s disp n d false _ (some bpv) hd⟩
                · simp only [if_neg hob]
                  exact ⟨db.barycenters,
                    createStarRest_factor ext db s disp n d false _ none hd⟩
              · simp only [if_neg hae]
                exact ⟨db.barycenters,
                  createStarRest_factor ext db s disp n d false _ none hd⟩

theorem lookupByKey_congr {α : Type} (f g : α → Nat) (k : Nat) (l : List α)
    (h : ∀ a ∈ l, f a = g a) : lookupByKey f k l = lookupByKey g k l := by
  have hdw : l.dropWhile (fun a => decide (f a < k)) =
      l.dropWhile (fun a => decide (g a < k)) := by
    induction l with
    | nil => rfl
    | cons a l ih =>
        simp only [List.dropWhile_cons]
        rw [h a (List.mem_cons_self a l)]
        split
        · exact ih (fun b hb => h b (List.mem_cons_of_mem a hb))
        · rfl
  unfold lookupByKey lowerBoundByKey
  rw [hdw]
  cases hh : (l.dropWhile (fun a => decide (g a < k))).head? with
  | none => rfl
  | some a =>
      have ha : a ∈ l := by
        have hsub := (List.dropWhile_sublist (fun a => decide (g a < k)) (l := l)).subset
        cases hl : l.dropWhile (fun a => decide (g a < k)) with
        | nil => rw [hl] at hh; cases hh
        | cons b t =>
            rw [hl] at hh
            cases hh
            exact hsub (hl ▸ List.mem_cons_self a t)
      simp only [h a ha]

theorem find?_mapInsert_self (m : List (Nat × Nat)) (k v : Nat) :
    (mapInsert m k v).find? (fun e => e.1 == k) = some (k, v) := by
  induction m with
  | nil => simp [mapInsert]
  | cons e rest ih =>
      by_cases he : e.1 = k
      · simp [mapInsert, he]
      · simp only [mapInsert, if_neg he]
        rw [List.find?_cons_of_neg _ (by simp [he]), ih]

theorem starAt_append_lt (l l2 : List Star) (p : Nat) (hp : p < l.length) :
    starAt (l ++ l2) p = starAt l p := by
  unfold starAt
  rw [List.getD_eq_getElem?_getD, List.getD_eq_getElem?_getD,
    List.getElem?_append, if_pos hp]

theorem starAt_append_length (l : List Star) (a : Star) :
    starAt (l ++ [a]) l.length = a := by
  unfold starAt
  rw [List.getD_eq_getElem?_getD, List.getElem?_append_right (Nat.le_refl _),
    Nat.sub_self]
  rfl

theorem nameDBErase_add (es : List (Nat × List Byte)) (cn : Nat) (nm : List Byte) :
    nameDBErase (nameDBAdd es cn nm) cn = nameDBErase es cn := by
  unfold nameDBAdd nameDBErase
  split
  · rfl
  · simp [List.filter_append]

theorem nameDBErase_foldl (cn : Nat) (names : List (List Byte))
    (es : List (Nat × List Byte)) :
    nameDBErase (names.foldl (fun acc nm => nameDBAdd acc cn nm) es) cn =
      nameDBErase es cn := by
  induction names generalizing es with
  | nil => rfl
  | cons nm t ih =>
      show nameDBErase (t.foldl (fun acc nm => nameDBAdd acc cn nm)
        (nameDBAdd es cn nm)) cn = nameDBErase es cn
      rw [ih (nameDBAdd es cn nm), nameDBErase_add]

theorem nameDBErase_idem (es : List (Nat × List Byte)) (cn : Nat) :
    nameDBErase (nameDBErase es cn) cn = nameDBErase es cn := by
  unfold nameDBErase
  rw [List.filter_filter]
  simp

theorem findWhileLoading_stable (db db2 : DB) (n L : Nat)
    (h1 : db2.binFileCatalogNumberIndex = db.binFileCatalogNumberIndex)
    (h2 : ∀ p ∈ db.binFileCatalogNumberIndex,
      starAt db2.unsortedStars p = starAt db.unsortedStars p)
    (h3 : db2.stcFileCatalogNumberIndex.find? (fun e => e.1 == n) = some (n, L))
    (hmiss : findWhileLoading db n = none) :
    findWhileLoading db2 n = some L := by
  unfold findWhileLoading at hmiss ⊢
  cases hlb : lookupByKey (fun p => (starAt db.unsortedStars p).index) n
      db.binFileCatalogNumberIndex with
  | some p => rw [hlb] at hmiss; cases hmiss
  | none =>
      have hlb2 : lookupByKey (fun p => (starAt db2.unsortedStars p).index) n
          db2.binFileCatalogNumberIndex = none := by
        rw [h1, lookupByKey_congr _ (fun p => (starAt db.unsortedStars p).index) n _
          (fun p hp => by rw [h2 p hp])]
        exact hlb
      rw [hlb2, h3]

theorem findWhileLoading_congr (db db2 : DB) (k : Nat)
    (hb : db2.binFileCatalogNumberIndex = db.binFileCatalogNumberIndex)
    (hvals : ∀ q ∈ db.binFileCatalogNumberIndex,
      (starAt db2.unsortedStars q).index = (starAt db.unsortedStars q).index)
    (hstc : db2.stcFileCatalogNumberIndex.find? (fun e => e.1 == k) =
      db.stcFileCatalogNumberIndex.find? (fun e => e.1 == k)) :
    findWhileLoading db2 k = findWhileLoading db k := by
  unfold findWhileLoading
  rw [hb, lookupByKey_congr (fun p => (starAt db2.unsortedStars p).index)
    (fun p => (starAt db.unsortedStars p).index) k _ hvals, hstc]

theorem findWhileLoading_pos_lt (db : DB) (k q : Nat)
    (hbin : ∀ p ∈ db.binFileCatalogNumberIndex, p < db.unsortedStars.length)
    (hstc1 : ∀ e ∈ db.stcFileCatalogNumberIndex, e.2 < db.unsortedStars.length)
    (hfind : findWhileLoading db k = some q) : q < db.unsortedStars.length := by
  unfold findWhileLoading at hfind
  cases hlb : lookupByKey (fun p => (starAt db.unsortedStars p).index) k
      db.binFileCatalogNumberIndex with
  | some p =>
      rw [hlb] at hfind
      cases hfind
      exact hbin q (lookupByKey_mem _ _ _ _ hlb).1
  | none =>
      rw [hlb] at hfind
      cases hstcf : db.stcFileCatalogNumberIndex.find? (fun e => e.1 == k) with
      | none => rw [hstcf] at hfind; cases hfind
      | some e =>
          rw [hstcf] at hfind
          cases hfind
          exact hstc1 e (List.mem_of_find?_eq_some hstcf)

theorem findWhileLoading_index (db : DB) (k q : Nat)
    (hstc2 : ∀ e ∈ db.stcFileCatalogNumberIndex,
      (starAt db.unsortedStars e.2).index = e.1)
    (hfind : findWhileLoading db k = some q) :
    (starAt db.unsortedStars q).index = k := by
  unfold findWhileLoading at hfind
  cases hlb : lookupByKey (fun p => (starAt db.unsortedStars p).index) k
      db.binFileCatalogNumberIndex with
  | some p =>
      rw [hlb] at hfind
      cases hfind
      exact (lookupByKey_mem _ _ _ _ hlb).2
  | none =>
      rw [hlb] at hfind
      cases hstcf : db.stcFileCatalogNumberIndex.find? (fun e => e.1 == k) with
      | none => rw [hstcf] at hfind; cases hfind
      | some e =>
          rw [hstcf] at hfind
          cases hfind
          have hm := List.mem_of_find?_eq_some hstcf
          have hp : e.1 = k := by simpa using List.find?_some hstcf
          rw [hstc2 e hm, hp]

theorem find?_mapInsert_ne (m : List (Nat × Nat)) (k v k2 : Nat)
    (hk : ¬ k2 = k) :
    (mapInsert m k v).find? (fun e => e.1 == k2) =
      m.find? (fun e => e.1 == k2) := by
  have hkk : ((k == k2) : Bool) = false := by
    simp
    omega
  induction m with
  | nil =>
      simp only [mapInsert, List.find?_cons, hkk]
  | cons e rest ih =>
      by_cases he : e.1 = k
      · have hmi : mapInsert (e :: rest) k v = (k, v) :: rest := by
          simp [mapInsert, he]
        rw [hmi]
        simp only [List.find?_cons, hkk, he]
      · simp only [mapInsert, if_neg he, List.find?_cons]
        cases hp : ((e.1 == k2) : Bool) with
        | true => simp only [hp]
        | false =>
            simp only [hp]
            exact ih

theorem starAt_set_self (l : List Star) (p : Nat) :
    l.set p (starAt l p) = l := by
  induction l generalizing p with
  | nil => rfl
  | cons a t ih =>
      cases p with
      | zero => rfl
      | succ p =>
          show a :: (t.set p (starAt t p)) = a :: t
          rw [ih]

theorem starAt_set_ne (l : List Star) (p q : Nat) (a : Star) (h : ¬ p = q) :
    starAt (l.set p a) q = starAt l q := by
  unfold starAt
  rw [List.getD_eq_getElem?_getD, List.getD_eq_getElem?_getD,
    List.getElem?_set_ne h]

theorem nameRegister_eq (df : StcDef) (n : Nat) (x : DB) :
    ∃ N, nameRegister df n x = { x with names := N } := by
  unfold nameRegister
  by_cases hnm : df.objName ≠ []
  · simp only [if_pos hnm]
    cases hx : x.names with
    | none => exact ⟨x.names, rfl⟩
    | some entries => exact ⟨_, rfl⟩
  · simp only [if_neg hnm]
    exact ⟨x.names, rfl⟩

theorem loadStep_replace_eq (ext : Ext) (db : DB) (df : StcDef) (n : Nat)
    (hdisp : df.disposition = Disposition.replace)
    (hres : replaceNumber db df = n)
    (hn : ¬ n = InvalidIndex) :
    ∃ B, loadStep ext db df =
      (match findWhileLoading db n with
       | some p =>
           let star1 := applyOverwrite (starAt db.unsortedStars p)
             (createStarOutcome ext n df.data (!df.isStar) (resolveBcNo db df.data)
               (resolveBp db df.data)).2
           let db3 : DB :=
             { db with
               unsortedStars := db.unsortedStars.set p star1,
               barycenters := B }
           if (createStarOutcome ext n df.data (!df.isStar) (resolveBcNo db df.data)
               (resolveBp db df.data)).1 then
             nameRegister df n db3
           else db3
       | none =>
           let star1 := applyOverwrite {}
             (createStarOutcome ext n df.data (!df.isStar) (resolveBcNo db df.data)
               (resolveBp db df.data)).2
           if (createStarOutcome ext n df.data (!df.isStar) (resolveBcNo db df.data)
               (resolveBp db df.data)).1 then
             nameRegister df n
               { db with
                 unsortedStars := db.unsortedStars ++ [star1],
                 nStars := db.nStars + 1,
                 stcFileCatalogNumberIndex := (mapInsert db.stcFileCatalogNumberIndex
                   n db.unsortedStars.length),
                 barycenters := B }
           else { db with barycenters := B }) := by
  cases hfind : findWhileLoading db n with
  | some p =>
      obtain ⟨B, hcs⟩ := createStar_factor ext db (starAt db.unsortedStars p)
        Disposition.replace n df.data (!df.isStar) (by intro h; cases h)
      refine ⟨B, ?_⟩
      simp only [loadStep, hdisp, hres, hn, if_false, hfind, hcs]
      rfl
  | none =>
      obtain ⟨B, hcs⟩ := createStar_factor ext db {} Disposition.replace n df.data
        (!df.isStar) (by intro h; cases h)
      refine ⟨B, ?_⟩
      simp only [loadStep, hdisp, hres, hn, if_false, hfind, hcs]
      rfl

theorem resolveBp_stable_append (db db2 : DB) (d : StarData) (n : Nat) (s1 : Star)
    (hbin : ∀ p ∈ db.binFileCatalogNumberIndex, p < db.unsortedStars.length)
    (hstc1 : ∀ e ∈ db.stcFileCatalogNumberIndex, e.2 < db.unsortedStars.length)
    (hu : db2.unsortedStars = db.unsortedStars ++ [s1])
    (hb : db2.binFileCatalogNumberIndex = db.binFileCatalogNumberIndex)
    (hst : db2.stcFileCatalogNumberIndex =
      mapInsert db.stcFileCatalogNumberIndex n db.unsortedStars.length)
    (hmiss : findWhileLoading db n = none)
    (hbcno : resolveBcNo db2 d = resolveBcNo db d)
    (hsome : ∀ bc, d.hasOrbit = true → resolveBcNo db d = some bc →
      ¬ bc = InvalidIndex → (resolveBp db d).isSome = true) :
    resolveBp db2 d = resolveBp db d := by
  by_cases hob : d.hasOrbit = true
  case neg => simp [resolveBp, hob]
  case pos =>
  cases hr : resolveBcNo db d with
  | none =>
      have e1 : resolveBp db d = none := by simp [resolveBp, hob, hr]
      have e2 : resolveBp db2 d = none := by simp [resolveBp, hob, hbcno, hr]
      rw [e1, e2]
  | some bc =>
      by_cases hbcinv : bc = InvalidIndex
      · have e1 : resolveBp db d = none := by simp [resolveBp, hob, hr, hbcinv]
        have e2 : resolveBp db2 d = none := by
          simp [resolveBp, hob, hbcno, hr, hbcinv]
        rw [e1, e2]
      · have e1 : resolveBp db d = baryPosLookup db bc := by
          simp [resolveBp, hob, hr, hbcinv]
        have e2 : resolveBp db2 d = baryPosLookup db2 bc := by
          simp [resolveBp, hob, hbcno, hr, hbcinv]
        rw [e1, e2]
        have hs := hsome bc hob hr hbcinv
        rw [e1] at hs
        obtain ⟨q, hq⟩ : ∃ q, findWhileLoading db bc = some q := by
          unfold baryPosLookup at hs
          cases hcase : findWhileLoading db bc with
          | none => rw [hcase] at hs; simp at hs
          | some q => exact ⟨q, rfl⟩
        have hqlt : q < db.unsortedStars.length :=
          findWhileLoading_pos_lt db bc q hbin hstc1 hq
        have hbcn : ¬ bc = n := by
          intro hh
          rw [hh, hmiss] at hq
          cases hq
        have hf2 : findWhileLoading db2 bc = findWhileLoading db bc :=
          findWhileLoading_congr db db2 bc hb
            (fun p2 hp2 => by rw [hu, starAt_append_lt _ _ p2 (hbin p2 hp2)])
            (by rw [hst]; exact find?_mapInsert_ne _ _ _ _ hbcn)
        unfold baryPosLookup
        rw [hf2, hq]
        simp only [Option.map_some']
        rw [hu, starAt_append_lt _ _ q hqlt]

theorem resolveBp_stable_set (db db2 : DB) (d : StarData) (n p : Nat)
    (ow : StarOverwrite)
    (hbin : ∀ q ∈ db.binFileCatalogNumberIndex, q < db.unsortedStars.length)
    (hstc1 : ∀ e ∈ db.stcFileCatalogNumberIndex, e.2 < db.unsortedStars.length)
    (hstc2 : ∀ e ∈ db.stcFileCatalogNumberIndex,
      (starAt db.unsortedStars e.2).index = e.1)
    (hu : db2.unsortedStars = db.unsortedStars.set p
      (applyOverwrite (starAt db.unsortedStars p) ow))
    (hb : db2.binFileCatalogNumberIndex = db.binFileCatalogNumberIndex)
    (hst : db2.stcFileCatalogNumberIndex = db.stcFileCatalogNumberIndex)
    (hfind : findWhileLoading db n = some p)
    (hpidx : (starAt db.unsortedStars p).index = n)
    (howi : ow.index = none ∨ ow.index = some n)
    (hbcno : resolveBcNo db2 d = resolveBcNo db d)
    (howp : ∀ bc, d.hasOrbit = true → resolveBcNo db d = some bc →
      ¬ bc = InvalidIndex → ow.pos = none ∨ ow.pos = resolveBp db d) :
    resolveBp db2 d = resolveBp db d := by
  have hplt : p < db.unsortedStars.length :=
    findWhileLoading_pos_lt db n p hbin hstc1 hfind
  have hsa : starAt (db.unsortedStars.set p
      (applyOverwrite (starAt db.unsortedStars p) ow)) p =
      applyOverwrite (starAt db.unsortedStars p) ow := by
    unfold starAt
    exact getD_set_self _ _ _ _ hplt
  by_cases hob : d.hasOrbit = true
  case neg => simp [resolveBp, hob]
  case pos =>
  cases hr : resolveBcNo db d with
  | none =>
      have e1 : resolveBp db d = none := by simp [resolveBp, hob, hr]
      have e2 : resolveBp db2 d = none := by simp [resolveBp, hob, hbcno, hr]
      rw [e1, e2]
  | some bc =>
      by_cases hbcinv : bc = InvalidIndex
      · have e1 : resolveBp db d = none := by simp [resolveBp, hob, hr, hbcinv]
        have e2 : resolveBp db2 d = none := by
          simp [resolveBp, hob, hbcno, hr, hbcinv]
        rw [e1, e2]
      · have e1 : resolveBp db d = baryPosLookup db bc := by
          simp [resolveBp, hob, hr, hbcinv]
        have e2 : resolveBp db2 d = baryPosLookup db2 bc := by
          simp [resolveBp, hob, hbcno, hr, hbcinv]
        rw [e1, e2]
        have hvals : ∀ q ∈ db.binFileCatalogNumberIndex,
            (starAt db2.unsortedStars q).index =
            (starAt db.unsortedStars q).index := by
          intro q hq
          by_cases hqp : q = p
          · subst hqp
            rw [hu, hsa]
            rcases howi with h | h
            · simp [applyOverwrite, h]
            · simp [applyOverwrite, h, hpidx]
          · rw [hu, starAt_set_ne _ _ _ _ (fun hh => hqp hh.symm)]
        have hf2 : findWhileLoading db2 bc = findWhileLoading db bc :=
          findWhileLoading_congr db db2 bc hb hvals (by rw [hst])
        unfold baryPosLookup
        rw [hf2]
        cases hq : findWhileLoading db bc with
        | none => rfl
        | some q =>
            simp only [Option.map_some']
            by_cases hqp : q = p
            · subst hqp
              have hbcn : bc = n := by
                have hidx := findWhileLoading_index db bc q hstc2 hq
                rw [← hidx]
                exact hpidx
              have hrbpv : resolveBp db d =
                  some ((starAt db.unsortedStars q).pos) := by
                rw [e1]
                unfold baryPosLookup
                rw [hbcn, hfind]
                rfl
              rcases howp bc hob hr hbcinv with h | h
              · rw [hu, hsa]
                simp [applyOverwrite, h]
              · rw [hrbpv] at h
                rw [hu, hsa]
                simp [applyOverwrite, h]
            · rw [hu, starAt_set_ne _ _ _ _ (fun hh => hqp hh.symm)]

theorem loadStep_replace_second (ext : Ext) (db2 : DB) (df : StcDef) (n L : Nat)
    (out0 : Bool × StarOverwrite) (s0 : Star)
    (hdisp : df.disposition = Disposition.replace)
    (hres : replaceNumber db2 df = n)
    (hn : ¬ n = InvalidIndex)
    (hout : createStarOutcome ext n df.data (!df.isStar) (resolveBcNo db2 df.data)
      (resolveBp db2 df.data) = out0)
    (hfind : findWhileLoading db2 n = some L)
    (hstar : starAt db2.unsortedStars L = applyOverwrite s0 out0.2)
    (hnm3 : out0.1 = true → df.objName ≠ [] → ∀ entries, db2.names = some entries →
      (splitColon df.objName).foldl (fun es nm => nameDBAdd es n nm)
        (nameDBErase entries n) = entries) :
    observable (loadStep ext db2 df) = observable db2 := by
  obtain ⟨B, h⟩ := loadStep_replace_eq ext db2 df n hdisp hres hn
  simp only [hfind, hout] at h
  rw [hstar, applyOverwrite_idem, ← hstar, starAt_set_self] at h
  cases hb1 : out0.1 with
  | false =>
      rw [hb1] at h
      simp only [Bool.false_eq_true, if_false] at h
      rw [h]
      simp [observable]
  | true =>
      rw [if_pos hb1] at h
      rw [h]
      unfold nameRegister
      by_cases hnm : df.objName ≠ []
      · rw [if_pos hnm]
        cases hnames : db2.names with
        | none => simp [observable, hnames]
        | some entries =>
            simp [observable, hnames, hnm3 hb1 hnm entries hnames]
      · rw [if_neg hnm]
        simp [observable]

/-- C8 (amended): loading a Replace definition twice in succession is
observably idempotent (star count, per-star fields, both load-time
catalog-number indexes, name database) whenever the definition's target
resolves to a non-sentinel catalog number that resolves identically on the
second pass, any orbit-barycenter name also resolves identically, and the
load-time indexes are consistent (in-range positions that hold the indexed
catalog numbers).  This covers the replace-in-place case, orbit-bearing
definitions, and name-resolved numbers; the number- and barycenter-
stability hypotheses hold automatically for explicit numbers.  The claim
fails exactly when the resolution falls through to the auto-numbering
counter: a Replace with neither a catalog number nor a name draws a fresh
number on every load (see the counterexample). -/
theorem replace_idempotent (ext : Ext) (db : DB) (df : StcDef) (n : Nat)
    (hdisp : df.disposition = Disposition.replace)
    (hres1 : replaceNumber db df = n)
    (hn : ¬ n = InvalidIndex)
    (hres2 : replaceNumber (loadStep ext db df) df = n)
    (hbcst : resolveBcNo (loadStep ext db df) df.data = resolveBcNo db df.data)
    (hbin : ∀ p ∈ db.binFileCatalogNumberIndex, p < db.unsortedStars.length)
    (hstc1 : ∀ e ∈ db.stcFileCatalogNumberIndex, e.2 < db.unsortedStars.length)
    (hstc2 : ∀ e ∈ db.stcFileCatalogNumberIndex,
      (starAt db.unsortedStars e.2).index = e.1) :
    observable (loadStep ext (loadStep ext db df) df) =
      observable (loadStep ext db df) := by
  obtain ⟨B1, h1⟩ := loadStep_replace_eq ext db df n hdisp hres1 hn
  cases hfind : findWhileLoading db n with
  | none =>
      simp only [hfind] at h1
      cases hok : (createStarOutcome ext n df.data (!df.isStar)
          (resolveBcNo db df.data) (resolveBp db df.data)).1 with
      | false =>
          rw [hok] at h1
          simp only [Bool.false_eq_true, if_false] at h1
          obtain ⟨B2, h2⟩ := loadStep_replace_eq ext (loadStep ext db df) df n
            hdisp hres2 hn
          have hf2 : findWhileLoading (loadStep ext db df) n = none := by
            rw [h1]
            exact hfind
          simp only [hf2] at h2
          have hout2 : createStarOutcome ext n df.data (!df.isStar)
              (resolveBcNo (loadStep ext db df) df.data)
              (resolveBp (loadStep ext db df) df.data) =
              createStarOutcome ext n df.data (!df.isStar)
                (resolveBcNo db df.data) (resolveBp db df.data) := by
            rw [h1]
            rfl
          rw [hout2, hok] at h2
          simp only [Bool.false_eq_true, if_false] at h2
          rw [h2]
          simp [observable]
      | true =>
          rw [if_pos hok] at h1
          obtain ⟨N, hN⟩ := nameRegister_eq df n
            { db with
              unsortedStars := (db.unsortedStars ++
                [applyOverwrite {} (createStarOutcome ext n df.data (!df.isStar)
                  (resolveBcNo db df.data) (resolveBp db df.data)).2]),
              nStars := db.nStars + 1,
              stcFileCatalogNumberIndex := (mapInsert db.stcFileCatalogNumberIndex
                n db.unsortedStars.length),
              barycenters := B1 }
          have h1' : loadStep ext db df = { db with
              unsortedStars := (db.unsortedStars ++
                [applyOverwrite {} (createStarOutcome ext n df.data (!df.isStar)
                  (resolveBcNo db df.data) (resolveBp db df.data)).2]),
              nStars := db.nStars + 1,
              stcFileCatalogNumberIndex := (mapInsert db.stcFileCatalogNumberIndex
                n db.unsortedStars.length),
              barycenters := B1,
              names := N } := by
            rw [h1, hN]
          have hfind2 : findWhileLoading (loadStep ext db df) n =
              some db.unsortedStars.length := by
            rw [h1']
            exact findWhileLoading_stable db _ n db.unsortedStars.length rfl
              (fun p hp => starAt_append_lt _ _ p (hbin p hp))
              (find?_mapInsert_self _ n _) hfind
          have hstar0 : starAt (loadStep ext db df).unsortedStars
              db.unsortedStars.length = applyOverwrite {}
                (createStarOutcome ext n df.data (!df.isStar)
                  (resolveBcNo db df.data) (resolveBp db df.data)).2 := by
            rw [h1']
            exact starAt_append_length _ _
          have hbp : resolveBp (loadStep ext db df) df.data =
              resolveBp db df.data := by
            apply resolveBp_stable_append db (loadStep ext db df) df.data n
              (applyOverwrite {} (createStarOutcome ext n df.data (!df.isStar)
                (resolveBcNo db df.data) (resolveBp db df.data)).2)
              hbin hstc1
            · rw [h1']
            · rw [h1']
            · rw [h1']
            · exact hfind
            · exact hbcst
            · intro bc hob2 hr hbcinv
              have hok2 := hok
              rw [hr] at hok2
              exact createStarOutcome_orbit_success ext n df.data (!df.isStar)
                bc (resolveBp db df.data) hok2 hob2
          have hout2 : createStarOutcome ext n df.data (!df.isStar)
              (resolveBcNo (loadStep ext db df) df.data)
              (resolveBp (loadStep ext db df) df.data) =
              (createStarOutcome ext n df.data (!df.isStar)
                (resolveBcNo db df.data) (resolveBp db df.data)) := by
            rw [hbcst, hbp]
          have hnm3 : (createStarOutcome ext n df.data (!df.isStar)
                (resolveBcNo db df.data) (resolveBp db df.data)).1 = true →
              df.objName ≠ [] → ∀ entries,
              (loadStep ext db df).names = some entries →
              (splitColon df.objName).foldl (fun es nm => nameDBAdd es n nm)
                (nameDBErase entries n) = entries := by
            intro _ hnm entries hentries
            rw [h1] at hentries
            unfold nameRegister at hentries
            rw [if_pos hnm] at hentries
            cases hnames : db.names with
            | none => simp [hnames] at hentries
            | some e0 =>
                simp only [hnames, Option.some.injEq] at hentries
                rw [← hentries, nameDBErase_foldl, nameDBErase_idem]
          exact loadStep_replace_second ext (loadStep ext db df) df n
            db.unsortedStars.length
            (createStarOutcome ext n df.data (!df.isStar)
              (resolveBcNo db df.data) (resolveBp db df.data))
            {} hdisp hres2 hn hout2 hfind2 hstar0 hnm3
  | some p =>
      simp only [hfind] at h1
      have hplt : p < db.unsortedStars.length :=
        findWhileLoading_pos_lt db n p hbin hstc1 hfind
      have hpidx : (starAt db.unsortedStars p).index = n :=
        findWhileLoading_index db n p hstc2 hfind
      have hsa : starAt (db.unsortedStars.set p
          (applyOverwrite (starAt db.unsortedStars p)
            (createStarOutcome ext n df.data (!df.isStar)
              (resolveBcNo db df.data) (resolveBp db df.data)).2)) p =
          applyOverwrite (starAt db.unsortedStars p)
            (createStarOutcome ext n df.data (!df.isStar)
              (resolveBcNo db df.data) (resolveBp db df.data)).2 := by
        unfold starAt
        exact getD_set_self _ _ _ _ hplt
      have hvals : ∀ q ∈ db.binFileCatalogNumberIndex,
          (starAt (db.unsortedStars.set p
            (applyOverwrite (starAt db.unsortedStars p)
              (createStarOutcome ext n df.data (!df.isStar)
                (resolveBcNo db df.data) (resolveBp db df.data)).2)) q).index =
          (starAt db.unsortedStars q).index := by
        intro q hq
        by_cases hqp : q = p
        · subst hqp
          rw [hsa]
          rcases createStarOutcome_index ext n df.data (!df.isStar)
            (resolveBcNo db df.data) (resolveBp db df.data) with h | h
          · simp [applyOverwrite, h]
          · simp [applyOverwrite, h, hpidx]
        · rw [starAt_set_ne _ _ _ _ (fun hh => hqp hh.symm)]
      cases hok : (createStarOutcome ext n df.data (!df.isStar)
          (resolveBcNo db df.data) (resolveBp db df.data)).1 with
      | false =>
          rw [hok] at h1
          simp only [Bool.false_eq_true, if_false] at h1
          have hfind2 : findWhileLoading (loadStep ext db df) n = some p := by
            have hcg : findWhileLoading (loadStep ext db df) n =
                findWhileLoading db n := by
              apply findWhileLoading_congr db _ n
              · rw [h1]
              · rw [h1]
                exact hvals
              · rw [h1]
            rw [hcg, hfind]
          have hstar0 : starAt (loadStep ext db df).unsortedStars p =
              applyOverwrite (starAt db.unsortedStars p)
                (createStarOutcome ext n df.data (!df.isStar)
                  (resolveBcNo db df.data) (resolveBp db df.data)).2 := by
            rw [h1]
            exact hsa
          have hbp : resolveBp (loadStep ext db df) df.data =
              resolveBp db df.data := by
            apply resolveBp_stable_set db (loadStep ext db df) df.data n p
              (createStarOutcome ext n df.data (!df.isStar)
                (resolveBcNo db df.data) (resolveBp db df.data)).2
              hbin hstc1 hstc2
            · rw [h1]
            · rw [h1]
            · rw [h1]
            · exact hfind
            · exact hpidx
            · exact createStarOutcome_index ext n df.data (!df.isStar)
                (resolveBcNo db df.data) (resolveBp db df.data)
            · exact hbcst
            · intro bc hob2 hr hbcinv
              have h2 := createStarOutcome_pos_orbit ext n df.data (!df.isStar)
                bc (resolveBp db df.data) hob2
              rw [hr]
              exact h2
          have hout2 : createStarOutcome ext n df.data (!df.isStar)
              (resolveBcNo (loadStep ext db df) df.data)
              (resolveBp (loadStep ext db df) df.data) =
              (createStarOutcome ext n df.data (!df.isStar)
                (resolveBcNo db df.data) (resolveBp db df.data)) := by
            rw [hbcst, hbp]
          have hnm3 : (createStarOutcome ext n df.data (!df.isStar)
                (resolveBcNo db df.data) (resolveBp db df.data)).1 = true →
              df.objName ≠ [] → ∀ entries,
              (loadStep ext db df).names = some entries →
              (splitColon df.objName).foldl (fun es nm => nameDBAdd es n nm)
                (nameDBErase entries n) = entries := by
            intro hcon
            rw [hok] at hcon
            cases hcon
          exact loadStep_replace_second ext (loadStep ext db df) df n p
            (createStarOutcome ext n df.data (!df.isStar)
              (resolveBcNo db df.data) (resolveBp db df.data))
            (starAt db.unsortedStars p) hdisp hres2 hn hout2 hfind2 hstar0 hnm3
      | true =>
          rw [if_pos hok] at h1
          obtain ⟨N, hN⟩ := nameRegister_eq df n
            { db with
              unsortedStars := (db.unsortedStars.set p
                (applyOverwrite (starAt db.unsortedStars p)
                  (createStarOutcome ext n df.data (!df.isStar)
                    (resolveBcNo db df.data) (resolveBp db df.data)).2)),
              barycenters := B1 }
          have h1' : loadStep ext db df = { db with
              unsortedStars := (db.unsortedStars.set p
                (applyOverwrite (starAt db.unsortedStars p)
                  (createStarOutcome ext n df.data (!df.isStar)
                    (resolveBcNo db df.data) (resolveBp db df.data)).2)),
              barycenters := B1,
              names := N } := by
            rw [h1, hN]
          have hfind2 : findWhileLoading (loadStep ext db df) n = some p := by
            have hcg : findWhileLoading (loadStep ext db df) n =
                findWhileLoading db n := by
              apply findWhileLoading_congr db _ n
              · rw [h1']
              · rw [h1']
                exact hvals
              · rw [h1']
            rw [hcg, hfind]
          have hstar0 : starAt (loadStep ext db df).unsortedStars p =
              applyOverwrite (starAt db.unsortedStars p)
                (createStarOutcome ext n df.data (!df.isStar)
                  (resolveBcNo db df.data) (resolveBp db df.data)).2 := by
            rw [h1']
            exact hsa
          have hbp : resolveBp (loadStep ext db df) df.data =
              resolveBp db df.data := by
            apply resolveBp_stable_set db (loadStep ext db df) df.data n p
              (createStarOutcome ext n df.data (!df.isStar)
                (resolveBcNo db df.data) (resolveBp db df.data)).2
              hbin hstc1 hstc2
            · rw [h1']
            · rw [h1']
            · rw [h1']
            · exact hfind
            · exact hpidx
            · exact createStarOutcome_index ext n df.data (!df.isStar)
                (resolveBcNo db df.data) (resolveBp db df.data)
            · exact hbcst
            · intro bc hob2 hr hbcinv
              have h2 := createStarOutcome_pos_orbit ext n df.data (!df.isStar)
                bc (resolveBp db df.data) hob2
              rw [hr]
              exact h2
          have hout2 : createStarOutcome ext n df.data (!df.isStar)
              (resolveBcNo (loadStep ext db df) df.data)
              (resolveBp (loadStep ext db df) df.data) =
              (createStarOutcome ext n df.data (!df.isStar)
                (resolveBcNo db df.data) (resolveBp db df.data)) := by
            rw [hbcst, hbp]
          have hnm3 : (createStarOutcome ext n df.data (!df.isStar)
                (resolveBcNo db df.data) (resolveBp db df.data)).1 = true →
              df.objName ≠ [] → ∀ entries,
              (loadStep ext db df).names = some entries →
              (splitColon df.objName).foldl (fun es nm => nameDBAdd es n nm)
                (nameDBErase entries n) = entries := by
            intro _ hnm entries hentries
            rw [h1] at hentries
            unfold nameRegister at hentries
            rw [if_pos hnm] at hentries
            cases hnames : db.names with
            | none => simp [hnames] at hentries
            | some e0 =>
                simp only [hnames, Option.some.injEq] at hentries
                rw [← hentries, nameDBErase_foldl, nameDBErase_idem]
          exact loadStep_replace_second ext (loadStep ext db df) df n p
            (createStarOutcome ext n df.data (!df.isStar)
              (resolveBcNo db df.data) (resolveBp db df.data))
            (starAt db.unsortedStars p) hdisp hres2 hn hout2 hfind2 hstar0 hnm3

/-- Witness for C8: double-loading the numbered Replace definition
`defStarR` into the empty database. -/
theorem replace_idempotent_witness :
    observable (loadStep extTriv (loadStep extTriv DB.empty defStarR) defStarR) =
      observable (loadStep extTriv DB.empty defStarR) :=
  replace_idempotent extTriv DB.empty defStarR 10 rfl (by decide) (by decide)
    (by decide) rfl (by decide) (by decide) (by decide)

/-- C8 counterexample to the claim as stated: a Replace definition with
neither a catalog number nor a name resolves to the sentinel, so each load
draws a fresh auto catalog number and appends a new star — two loads
leave two stars where one load leaves one. -/
theorem replace_not_idempotent_counterexample :
    (loadStep extTriv (loadStep extTriv DB.empty defStarN) defStarN).nStars = 2 ∧
    (loadStep extTriv DB.empty defStarN).nStars = 1 := by
  decide

end Celestia
